import Mathlib

/-!
Verification of the query/filter/mutation core of the multi-user blogging
platform (post and category routers, slug utilities, result shape
transformer), embedded shallowly from the TypeScript source:

* `src/lib/utils.ts` : `generateSlug`, `isValidSlug`
* `src/server/api/routers/post.ts` : `transformPostQueryResults`,
  `postRouter.getAll` / `getBySlug` / `create` / `update` / `delete`
* the defensive duplicate of the post router (`postRouter.create` with
  Postgres error mapping)
* `src/server/api/routers/category.ts` : `categoryRouter.create`
* `src/lib/validations.ts` : zod schemas for filters and updates
* the Drizzle schema (tables `users`, `posts`, `categories`,
  `post_categories` with unique / foreign-key / check constraints)

Strings are Lean `String`s, timestamps are `Int` (epoch milliseconds),
serial columns are modelled by per-table counters in the database state.
JavaScript `toLowerCase` is modelled by ASCII `Char.toLower` (the inputs
of interest are ASCII).
-/

namespace Blog

/-- Characters the slug pipeline keeps: `[a-z0-9]` (the negated class of
`/[^a-z0-9]+/g` in `generateSlug`). -/
def isAlnumLower (c : Char) : Bool :=
  ('a' ≤ c && c ≤ 'z') || ('0' ≤ c && c ≤ '9')

/-- One pass of `.replace(/[^a-z0-9]+/g, "-")`: every maximal run of
non-`[a-z0-9]` characters becomes a single hyphen.  The flag records
whether we are inside such a run. -/
def collapseAux : List Char → Bool → List Char
  | [], _ => []
  | c :: cs, inRun =>
    if isAlnumLower c then c :: collapseAux cs false
    else if inRun then collapseAux cs true
    else '-' :: collapseAux cs true

/-- `String.prototype.trim`: strip leading and trailing whitespace. -/
def jsTrim (l : List Char) : List Char :=
  ((l.dropWhile Char.isWhitespace).reverse.dropWhile Char.isWhitespace).reverse

/-- Drop a single leading hyphen, if present. -/
def dropLeadHyphen : List Char → List Char
  | '-' :: rest => rest
  | l => l

/-- `.replace(/(^-|-$)/g, "")`: remove one leading and one trailing
hyphen (after the collapse pass at most one of each can exist). -/
def trimEdgeHyphens (l : List Char) : List Char :=
  (dropLeadHyphen (dropLeadHyphen l).reverse).reverse

/-- `generateSlug` from `src/lib/utils.ts`:
`text.toLowerCase().trim().replace(/[^a-z0-9]+/g, "-").replace(/(^-|-$)/g, "")`. -/
def generateSlug (text : String) : String :=
  ⟨trimEdgeHyphens (collapseAux (jsTrim (text.data.map Char.toLower)) false)⟩

/-- `isValidSlug` from `src/lib/utils.ts`: matches `/^[a-z0-9-]+$/` and
neither starts nor ends with `-`. -/
def isValidSlug (slug : String) : Bool :=
  (!slug.data.isEmpty) && slug.data.all (fun c => isAlnumLower c || c == '-')
    && !(slug.data.head? == some '-') && !(slug.data.getLast? == some '-')

example : generateSlug "Hello World!!" = "hello-world" := by decide
example : generateSlug "Tech & Science" = "tech-science" := by decide
example : generateSlug "  --x  " = "x" := by decide
example : generateSlug "!!!" = "" := by decide
example : isValidSlug "hello-world" = true := by decide
example : isValidSlug "-a" = false := by decide

/-- A row of the `categories` table (Drizzle schema). -/
structure Category where
  id : Nat
  name : String
  slug : String
  description : Option String
  parentId : Option Nat
  color : Option String
  icon : Option String
  isActive : Bool
  sortOrder : Int
  postCount : Int
  createdAt : Int
  updatedAt : Int
deriving DecidableEq, Repr

/-- A row of the `posts` table (Drizzle schema). -/
structure Post where
  id : Nat
  title : String
  content : Option String
  excerpt : Option String
  authorId : Nat
  slug : String
  published : Bool
  featured : Bool
  viewCount : Nat
  readingTime : Option Int
  seoTitle : Option String
  seoDescription : Option String
  publishedAt : Option Int
  createdAt : Int
  updatedAt : Int
deriving DecidableEq, Repr

/-- A row of the `users` table (columns the routers touch; the remaining
profile columns are nullable and never read by the verified code). -/
structure User where
  id : Nat
  username : String
  email : String
deriving DecidableEq, Repr

/-- A row of the `post_categories` junction table. -/
structure PostCategory where
  id : Nat
  postId : Nat
  categoryId : Nat
  createdAt : Int
deriving DecidableEq, Repr

/-- `RawPostQueryResult` from `post.ts`: the selected shape of the
left-joined query (post scalars plus the optional joined category). -/
structure RawPostQueryResult where
  id : Nat
  title : String
  content : Option String
  excerpt : Option String
  slug : String
  published : Bool
  featured : Bool
  viewCount : Nat
  readingTime : Option Int
  seoTitle : Option String
  seoDescription : Option String
  publishedAt : Option Int
  createdAt : Int
  updatedAt : Int
  authorId : Option Nat
  categories : Option Category
deriving DecidableEq, Repr

/-- `PostWithCategories`: a post record with its aggregated category list. -/
structure PostWithCategories where
  id : Nat
  title : String
  content : Option String
  excerpt : Option String
  slug : String
  published : Bool
  featured : Bool
  viewCount : Nat
  readingTime : Option Int
  seoTitle : Option String
  seoDescription : Option String
  publishedAt : Option Int
  createdAt : Int
  updatedAt : Int
  authorId : Option Nat
  categories : List Category
deriving DecidableEq, Repr

/-- The fresh record created for an unseen post id (`postsMap.set` branch of
`transformPostQueryResults`): all post scalars copied, empty category list. -/
def initPost (r : RawPostQueryResult) : PostWithCategories :=
  { id := r.id, title := r.title, content := r.content, excerpt := r.excerpt
    slug := r.slug, published := r.published, featured := r.featured
    viewCount := r.viewCount, readingTime := r.readingTime
    seoTitle := r.seoTitle, seoDescription := r.seoDescription
    publishedAt := r.publishedAt, createdAt := r.createdAt
    updatedAt := r.updatedAt, authorId := r.authorId, categories := [] }

/-- `postsMap.has(postData.id)`: whether a record for this post id exists. -/
def hasId (acc : List PostWithCategories) (i : Nat) : Bool :=
  acc.any (fun p => p.id == i)

/-- `postsMap.get(postData.id)!.categories.push(c)`: append the category to
the record whose id matches. -/
def pushCat (rid : Nat) (c : Category) (p : PostWithCategories) :
    PostWithCategories :=
  if p.id == rid then { p with categories := p.categories ++ [c] } else p

/-- One `results.forEach` iteration of `transformPostQueryResults`:
initialize the record if the post id is unseen, then push the row's
category (if non-null) onto that post's list. -/
def stepRow (acc : List PostWithCategories) (r : RawPostQueryResult) :
    List PostWithCategories :=
  let acc' := if hasId acc r.id then acc else acc ++ [initPost r]
  match r.categories with
  | none => acc'
  | some c => acc'.map (pushCat r.id c)

/-- `transformPostQueryResults` from `post.ts`: fold the flat row set into
one record per post id (insertion-ordered map, then `Array.from(values)`). -/
def transformPostQueryResults (results : List RawPostQueryResult) :
    List PostWithCategories :=
  results.foldl stepRow []

/-- The (in input order) categories carried by the rows of a given post id. -/
def catsFor (pid : Nat) (rows : List RawPostQueryResult) : List Category :=
  rows.filterMap (fun r => if r.id == pid then r.categories else none)

/-- Option-to-list view of a row's category field. -/
def catList : Option Category → List Category
  | some c => [c]
  | none => []

/-- Recursive regrouping of the row set: the first row opens its post's
record (collecting that post's categories from the whole row set), the
remaining ids are processed recursively.  Provably equal to
`transformPostQueryResults`; used to reason by well-founded recursion. -/
def groupFirst : List RawPostQueryResult → List PostWithCategories
  | [] => []
  | r :: rs =>
    { initPost r with categories := catList r.categories ++ catsFor r.id rs }
      :: groupFirst (rs.filter (fun x => x.id != r.id))
termination_by rows => rows.length
decreasing_by
  simp only [List.length_cons]
  exact Nat.lt_succ_of_le (List.length_filter_le _ _)

lemma pushCat_id (rid : Nat) (c : Category) (p : PostWithCategories) :
    (pushCat rid c p).id = p.id := by
  unfold pushCat; split <;> rfl

lemma hasId_map_pushCat (acc : List PostWithCategories) (rid : Nat)
    (c : Category) (i : Nat) :
    hasId (acc.map (pushCat rid c)) i = hasId acc i := by
  simp [hasId, List.any_map, Function.comp_def, pushCat_id]

lemma hasId_append_one (acc : List PostWithCategories)
    (q : PostWithCategories) (i : Nat) :
    hasId (acc ++ [q]) i = (hasId acc i || (q.id == i)) := by
  simp [hasId, List.any_append]

lemma catsFor_nil (pid : Nat) : catsFor pid [] = [] := rfl

lemma catsFor_cons (pid : Nat) (r : RawPostQueryResult)
    (rs : List RawPostQueryResult) :
    catsFor pid (r :: rs) =
      (if r.id = pid then catList r.categories else []) ++ catsFor pid rs := by
  simp only [catsFor, List.filterMap_cons]
  by_cases h : r.id = pid
  · simp only [h, if_pos, beq_self_eq_true]
    cases r.categories <;> simp [catList]
  · have hb : (r.id == pid) = false := by simpa using h
    simp [hb, h, catList]

lemma catsFor_cons_ne (pid : Nat) (r : RawPostQueryResult)
    (rs : List RawPostQueryResult) (h : r.id ≠ pid) :
    catsFor pid (r :: rs) = catsFor pid rs := by
  simp [catsFor_cons, h]

lemma catsFor_filter (pid : Nat) (g : RawPostQueryResult → Bool)
    (rows : List RawPostQueryResult)
    (h : ∀ x ∈ rows, x.id = pid → g x = true) :
    catsFor pid (rows.filter g) = catsFor pid rows := by
  induction rows with
  | nil => rfl
  | cons r rs ih =>
    by_cases hid : r.id = pid
    · have hg : g r = true := h r (by simp) hid
      rw [List.filter_cons_of_pos hg, catsFor_cons, catsFor_cons,
        ih (fun x hx => h x (by simp [hx]))]
    · by_cases hg : g r = true
      · rw [List.filter_cons_of_pos hg, catsFor_cons_ne _ _ _ hid,
          catsFor_cons_ne _ _ _ hid, ih (fun x hx => h x (by simp [hx]))]
      · rw [List.filter_cons_of_neg (by simpa using hg),
          catsFor_cons_ne _ _ _ hid, ih (fun x hx => h x (by simp [hx]))]

lemma stepRow_new (acc : List PostWithCategories) (r : RawPostQueryResult)
    (h : hasId acc r.id = false) :
    stepRow acc r =
      acc ++ [{ initPost r with categories := catList r.categories }] := by
  have hmem : ∀ p ∈ acc, (p.id == r.id) = false := by
    intro p hp
    have := List.any_eq_false.mp h p hp
    simpa using this
  unfold stepRow
  simp only [h, Bool.false_eq_true, if_neg, ite_false]
  cases hc : r.categories with
  | none => simp only [catList]; rfl
  | some c =>
    simp only [List.map_append, List.map_cons, List.map_nil]
    have h1 : acc.map (pushCat r.id c) = acc := by
      conv_rhs => rw [← List.map_id acc]
      apply List.map_congr_left
      intro p hp
      unfold pushCat
      simp [hmem p hp]
    have h2 : pushCat r.id c (initPost r) =
        { initPost r with categories := [c] } := by
      unfold pushCat
      simp [initPost]
    rw [h1, h2]
    simp [catList]

lemma groupFirst_cons (r : RawPostQueryResult) (rs : List RawPostQueryResult) :
    groupFirst (r :: rs) =
      { initPost r with categories := catList r.categories ++ catsFor r.id rs }
        :: groupFirst (rs.filter (fun x => x.id != r.id)) := by
  rw [groupFirst]

lemma foldl_stepRow (rows : List RawPostQueryResult) :
    ∀ acc : List PostWithCategories,
      rows.foldl stepRow acc =
        acc.map (fun p => { p with categories := p.categories ++ catsFor p.id rows })
          ++ groupFirst (rows.filter (fun r => !hasId acc r.id)) := by
  induction rows with
  | nil =>
    intro acc
    simp only [List.foldl_nil, List.filter_nil]
    have hmap : ∀ p : PostWithCategories,
        ({ p with categories := p.categories ++ catsFor p.id [] }) = p := by
      intro p
      simp only [catsFor_nil, List.append_nil]
    rw [List.map_congr_left (fun p _ => hmap p)]
    simp [groupFirst]
  | cons r rs ih =>
    intro acc
    rw [List.foldl_cons, ih (stepRow acc r)]
    by_cases h : hasId acc r.id
    · have hfilt : (r :: rs).filter (fun x => !hasId acc x.id) =
          rs.filter (fun x => !hasId acc x.id) := by
        rw [List.filter_cons_of_neg]
        simp [h]
      cases hc : r.categories with
      | none =>
        have hstep : stepRow acc r = acc := by
          unfold stepRow
          simp [h, hc]
        rw [hstep, hfilt]
        congr 1
        apply List.map_congr_left
        intro p _
        rw [catsFor_cons]
        simp [hc, catList]
      | some c =>
        have hstep : stepRow acc r = acc.map (pushCat r.id c) := by
          unfold stepRow
          simp [h, hc]
        rw [hstep]
        have hfc : rs.filter (fun x => !hasId (acc.map (pushCat r.id c)) x.id) =
            rs.filter (fun x => !hasId acc x.id) := by
          apply List.filter_congr
          intro x _
          rw [hasId_map_pushCat]
        rw [hfc, hfilt]
        congr 1
        rw [List.map_map]
        apply List.map_congr_left
        intro p _
        simp only [Function.comp]
        by_cases hp : p.id = r.id
        · have hb : (p.id == r.id) = true := by simpa using hp
          unfold pushCat
          rw [if_pos hb]
          rw [catsFor_cons]
          simp [← hp, hc, catList, List.append_assoc]
        · have hb : (p.id == r.id) = false := by simpa using hp
          unfold pushCat
          rw [if_neg (by simp [hb])]
          rw [catsFor_cons_ne _ _ _ (fun he => hp he.symm)]
    · have hb : hasId acc r.id = false := by simpa using h
      rw [stepRow_new acc r hb]
      have hgr : (r :: rs).filter (fun x => !hasId acc x.id) =
          r :: rs.filter (fun x => !hasId acc x.id) := by
        rw [List.filter_cons_of_pos]
        simp [hb]
      rw [hgr, groupFirst_cons]
      have hcf : catsFor r.id (rs.filter (fun x => !hasId acc x.id)) =
          catsFor r.id rs := by
        apply catsFor_filter
        intro x _ hx
        simp [hx, hb]
      rw [hcf]
      rw [List.map_append]
      rw [List.append_assoc]
      congr 1
      · apply List.map_congr_left
        intro p hp
        have hpne : p.id ≠ r.id := by
          intro he
          have : hasId acc r.id = true := by
            unfold hasId
            rw [List.any_eq_true]
            exact ⟨p, hp, by simp [he]⟩
          rw [this] at hb
          exact Bool.true_eq_false.mp hb
        rw [catsFor_cons_ne _ _ _ (fun he => hpne he.symm)]
      · have hff : (rs.filter (fun x => !hasId acc x.id)).filter
            (fun x => x.id != r.id) =
            rs.filter (fun x =>
              !hasId (acc ++ [{ initPost r with categories := catList r.categories }]) x.id) := by
          rw [List.filter_filter]
          apply List.filter_congr
          intro x _
          rw [hasId_append_one]
          have hrid : ({ initPost r with categories := catList r.categories } :
              PostWithCategories).id = r.id := rfl
          rw [hrid]
          by_cases hxi : x.id = r.id
          · simp [hxi]
          · have h1 : (x.id != r.id) = true := by simpa using hxi
            have h2 : (r.id == x.id) = false := by
              simpa using fun he => hxi he.symm
            simp [h1, h2]
        rw [hff]
        simp only [List.map_cons, List.map_nil, List.singleton_append]
        rfl

/-- `transformPostQueryResults` coincides with the recursive regrouping. -/
lemma transform_eq_groupFirst (rows : List RawPostQueryResult) :
    transformPostQueryResults rows = groupFirst rows := by
  unfold transformPostQueryResults
  rw [foldl_stepRow rows []]
  simp [hasId]

lemma groupFirst_scalars (rows : List RawPostQueryResult) :
    ∀ p ∈ groupFirst rows, ∃ r ∈ rows,
      p = { initPost r with categories := p.categories } := by
  induction rows using groupFirst.induct with
  | case1 => simp [groupFirst]
  | case2 r rs ih =>
    intro p hp
    rw [groupFirst_cons] at hp
    rcases List.mem_cons.mp hp with h | h
    · exact ⟨r, List.mem_cons_self r rs, by rw [h]⟩
    · obtain ⟨x, hx, he⟩ := ih p h
      exact ⟨x, List.mem_cons_of_mem _ (List.mem_of_mem_filter hx), he⟩

lemma groupFirst_mem_ids (rows : List RawPostQueryResult) (pid : Nat) :
    pid ∈ (groupFirst rows).map (fun p => p.id) ↔
      pid ∈ rows.map (fun r => r.id) := by
  induction rows using groupFirst.induct with
  | case1 => simp [groupFirst]
  | case2 r rs ih =>
    rw [groupFirst_cons]
    simp only [List.map_cons, List.mem_cons]
    constructor
    · rintro (h | h)
      · left
        exact h
      · rcases List.mem_map.mp (ih.mp h) with ⟨x, hx, hxe⟩
        right
        exact List.mem_map.mpr ⟨x, List.mem_of_mem_filter hx, hxe⟩
    · rintro (h | h)
      · left
        exact h
      · by_cases hpr : pid = r.id
        · left
          exact hpr
        · right
          apply ih.mpr
          rcases List.mem_map.mp h with ⟨x, hx, hxe⟩
          refine List.mem_map.mpr ⟨x, List.mem_filter.mpr ⟨hx, ?_⟩, hxe⟩
          subst hxe
          simpa using hpr

lemma groupFirst_ids_nodup (rows : List RawPostQueryResult) :
    ((groupFirst rows).map (fun p => p.id)).Nodup := by
  induction rows using groupFirst.induct with
  | case1 => simp [groupFirst]
  | case2 r rs ih =>
    rw [groupFirst_cons]
    simp only [List.map_cons, List.nodup_cons]
    refine ⟨fun hmem => ?_, ih⟩
    have h2 : r.id ∈ (groupFirst (rs.filter (fun x => x.id != r.id))).map
        (fun p => p.id) := hmem
    have h3 := (groupFirst_mem_ids (rs.filter (fun x => x.id != r.id)) r.id).mp h2
    rcases List.mem_map.mp h3 with ⟨x, hx, hxe⟩
    have h4 := (List.mem_filter.mp hx).2
    rw [hxe] at h4
    simp at h4

lemma groupFirst_cats (rows : List RawPostQueryResult) :
    ∀ p ∈ groupFirst rows, p.categories = catsFor p.id rows := by
  induction rows using groupFirst.induct with
  | case1 => simp [groupFirst]
  | case2 r rs ih =>
    intro p hp
    rw [groupFirst_cons] at hp
    rcases List.mem_cons.mp hp with h | h
    · subst h
      rw [catsFor_cons]
      simp [initPost]
    · have hpid : p.id ≠ r.id := by
        intro he
        have hmem : p.id ∈ (groupFirst (rs.filter (fun x => x.id != r.id))).map
            (fun q => q.id) := List.mem_map.mpr ⟨p, h, rfl⟩
        have := (groupFirst_mem_ids _ p.id).mp hmem
        rcases List.mem_map.mp this with ⟨x, hx, hxe⟩
        have hne := (List.mem_filter.mp hx).2
        rw [hxe, he] at hne
        simp at hne
      rw [catsFor_cons_ne _ _ _ (fun he => hpid he.symm), ih p h]
      apply catsFor_filter
      intro x _ hx
      rw [hx]
      simpa using hpid

lemma groupFirst_length_le (rows : List RawPostQueryResult) :
    (groupFirst rows).length ≤ rows.length := by
  induction rows using groupFirst.induct with
  | case1 => simp [groupFirst]
  | case2 r rs ih =>
    rw [groupFirst_cons]
    simp only [List.length_cons]
    exact Nat.succ_le_succ (le_trans ih (List.length_filter_le _ _))

lemma groupFirst_ne_nil (rows : List RawPostQueryResult) (h : rows ≠ []) :
    groupFirst rows ≠ [] := by
  cases rows with
  | nil => exact absurd rfl h
  | cons r rs =>
    rw [groupFirst_cons]
    exact List.cons_ne_nil _ _

lemma groupFirst_sorted (rows : List RawPostQueryResult)
    (h : rows.Pairwise (fun a b => b.createdAt ≤ a.createdAt)) :
    (groupFirst rows).Pairwise (fun p q => q.createdAt ≤ p.createdAt) := by
  induction rows using groupFirst.induct with
  | case1 => simp [groupFirst]
  | case2 r rs ih =>
    rw [groupFirst_cons]
    rcases List.pairwise_cons.mp h with ⟨hr, hrs⟩
    refine List.pairwise_cons.mpr ⟨?_, ih (hrs.sublist (List.filter_sublist _))⟩
    intro q hq
    obtain ⟨x, hx, he⟩ := groupFirst_scalars _ q hq
    have hcr : q.createdAt = x.createdAt :=
      (congrArg PostWithCategories.createdAt he).trans rfl
    show q.createdAt ≤ r.createdAt
    rw [hcr]
    exact hr x (List.mem_of_mem_filter hx)

/-- The (post id, category id) pairs carried by the non-null rows, in input
order.  The junction table's unique index on (post_id, category_id)
guarantees real join outputs have no duplicate pair here. -/
def rowPairs (rows : List RawPostQueryResult) : List (Nat × Nat) :=
  rows.filterMap (fun r => r.categories.map (fun c => (r.id, c.id)))

lemma rowPairs_cons (r : RawPostQueryResult) (rs : List RawPostQueryResult) :
    rowPairs (r :: rs) =
      (match r.categories with
        | some c => [(r.id, c.id)]
        | none => []) ++ rowPairs rs := by
  simp only [rowPairs, List.filterMap_cons]
  cases r.categories <;> simp

lemma catsFor_ids_eq (pid : Nat) (rows : List RawPostQueryResult) :
    (catsFor pid rows).map (fun c => c.id) =
      ((rowPairs rows).filter (fun x => x.1 == pid)).map (fun x => x.2) := by
  induction rows with
  | nil => rfl
  | cons r rs ih =>
    rw [catsFor_cons, rowPairs_cons]
    cases hc : r.categories with
    | none => simpa [catList] using ih
    | some c =>
      by_cases hid : r.id = pid
      · simp [catList, hid, ih]
      · have hb : (r.id == pid) = false := by simpa using hid
        simp [catList, hid, hb, ih]

lemma transform_cats_nodup (rows : List RawPostQueryResult)
    (h : (rowPairs rows).Nodup) :
    ∀ p ∈ transformPostQueryResults rows,
      (p.categories.map (fun c => c.id)).Nodup := by
  intro p hp
  rw [transform_eq_groupFirst] at hp
  rw [groupFirst_cats rows p hp, catsFor_ids_eq]
  apply List.Nodup.map_on ?_ (h.filter _)
  intro x hx y hy hxy
  have hx1 := (List.mem_filter.mp hx).2
  have hy1 := (List.mem_filter.mp hy).2
  cases x with
  | mk x1 x2 =>
    cases y with
    | mk y1 y2 =>
      simp only at hx1 hy1 hxy
      have hx1' : x1 = p.id := by simpa using hx1
      have hy1' : y1 = p.id := by simpa using hy1
      simp [hx1', hy1', hxy]

/-- A sample category row with a given id (remaining columns fixed). -/
def sampleCategory (cid : Nat) : Category :=
  { id := cid, name := "c", slug := "c", description := none, parentId := none
    color := none, icon := none, isActive := true, sortOrder := 0
    postCount := 0, createdAt := 0, updatedAt := 0 }

/-- A sample joined row for a given post id carrying an optional category. -/
def sampleRow (pid : Nat) (oc : Option Category) : RawPostQueryResult :=
  { id := pid, title := "t", content := none, excerpt := none, slug := "s"
    published := true, featured := false, viewCount := 0, readingTime := none
    seoTitle := none, seoDescription := none, publishedAt := none
    createdAt := 0, updatedAt := 0, authorId := some 1, categories := oc }

/-- C1 counterexample: `transformPostQueryResults` does NOT deduplicate a
post's category list.  Two input rows both joining post 1 to category 2
produce a categories array `[2, 2]` (category 2 is appended again even
though it was already appended for this post), so the claimed
"duplicate-free regardless of how many input rows carried those
categories" is false of the code. -/
theorem C1_counterexample :
    (transformPostQueryResults
        [sampleRow 1 (some (sampleCategory 2)),
         sampleRow 1 (some (sampleCategory 2))]).map
      (fun p => p.categories.map (fun c => c.id)) = [[2, 2]]
    ∧ ¬ (([2, 2] : List Nat).Nodup) := by
  exact ⟨rfl, by decide⟩

/-- C1 (amended): `transformPostQueryResults` returns exactly one record per
distinct post identifier of the input rows (ids duplicate-free, and an id
appears in the output iff it appears in some row), and each record's
category list is exactly the sequence of non-null categories of that
post's rows in input order; consequently, when the input carries no
duplicate (post id, category id) pair — which the junction table's unique
index guarantees for real join outputs — each record's category list is
duplicate-free (so a post joined to 2 distinct categories yields exactly
one record with 2 distinct categories). -/
theorem C1_transform_grouping (rows : List RawPostQueryResult)
    (h : (rowPairs rows).Nodup) :
    ((transformPostQueryResults rows).map (fun p => p.id)).Nodup
    ∧ (∀ pid, pid ∈ (transformPostQueryResults rows).map (fun p => p.id) ↔
        pid ∈ rows.map (fun r => r.id))
    ∧ (∀ p ∈ transformPostQueryResults rows, p.categories = catsFor p.id rows)
    ∧ (∀ p ∈ transformPostQueryResults rows,
        (p.categories.map (fun c => c.id)).Nodup) := by
  refine ⟨?_, ?_, ?_, transform_cats_nodup rows h⟩
  · rw [transform_eq_groupFirst]
    exact groupFirst_ids_nodup rows
  · intro pid
    rw [transform_eq_groupFirst]
    exact groupFirst_mem_ids rows pid
  · intro p hp
    rw [transform_eq_groupFirst] at hp
    exact groupFirst_cats rows p hp

/-- C1 witness: the multi-category scenario at a concrete input — one post
joined to the 2 distinct categories 2 and 3 yields one record whose
category list has the 2 distinct ids, duplicate-free. -/
theorem C1_transform_grouping_witness :
    (rowPairs [sampleRow 1 (some (sampleCategory 2)),
               sampleRow 1 (some (sampleCategory 3))]).Nodup
    ∧ (((transformPostQueryResults
          [sampleRow 1 (some (sampleCategory 2)),
           sampleRow 1 (some (sampleCategory 3))]).map (fun p => p.id)).Nodup
      ∧ (∀ pid, pid ∈ (transformPostQueryResults
            [sampleRow 1 (some (sampleCategory 2)),
             sampleRow 1 (some (sampleCategory 3))]).map (fun p => p.id) ↔
          pid ∈ [sampleRow 1 (some (sampleCategory 2)),
             sampleRow 1 (some (sampleCategory 3))].map (fun r => r.id))
      ∧ (∀ p ∈ transformPostQueryResults
            [sampleRow 1 (some (sampleCategory 2)),
             sampleRow 1 (some (sampleCategory 3))],
          p.categories = catsFor p.id
            [sampleRow 1 (some (sampleCategory 2)),
             sampleRow 1 (some (sampleCategory 3))])
      ∧ (∀ p ∈ transformPostQueryResults
            [sampleRow 1 (some (sampleCategory 2)),
             sampleRow 1 (some (sampleCategory 3))],
          (p.categories.map (fun c => c.id)).Nodup)) :=
  ⟨by decide, C1_transform_grouping _ (by decide)⟩

/-- The validated filter input of `postRouter.getAll`
(`postFiltersSchema` shape: optional search / categoryId / published /
authorId plus defaulted limit and offset). -/
structure PostFilters where
  search : Option String
  categoryId : Option Nat
  published : Option Bool
  authorId : Option Nat
  limit : Nat
  offset : Nat
deriving DecidableEq, Repr

/-- `postFiltersSchema` from `src/lib/validations.ts`: `categoryId` and
`authorId` are positive integers when present, `limit` is an integer in
`[1, 100]`, `offset` is a non-negative integer (non-negativity is carried
by the `Nat` type). -/
def postFiltersSchemaOk (f : PostFilters) : Bool :=
  (match f.categoryId with
    | some c => 1 ≤ c
    | none => true)
  && (match f.authorId with
    | some a => 1 ≤ a
    | none => true)
  && (1 ≤ f.limit && f.limit ≤ 100)

/-- The three conditionally pushed predicates of `postRouter.getAll`. -/
inductive Cond where
  | publishedEq : Bool → Cond
  | titleLike : String → Cond
  | categoryIdEq : Nat → Cond
deriving DecidableEq, Repr

/-- The `conditions` array built by `postRouter.getAll`: `published` is
pushed when not `undefined`, `search` when truthy (non-empty string),
`categoryId` when truthy (non-zero).  No predicate reads `authorId`. -/
def getAllConditions (input : PostFilters) : List Cond :=
  (match input.published with
    | some b => [Cond.publishedEq b]
    | none => [])
  ++ (match input.search with
    | some s => if s ≠ "" then [Cond.titleLike s] else []
    | none => [])
  ++ (match input.categoryId with
    | some c => if c ≠ 0 then [Cond.categoryIdEq c] else []
    | none => [])

/-- SQL `LIKE` pattern matching: `%` matches any sequence, `_` any single
character; other characters match literally. -/
def likeMatch : List Char → List Char → Bool
  | [], [] => true
  | [], _ :: _ => false
  | '%' :: ps, [] => likeMatch ps []
  | '%' :: ps, c :: s => likeMatch ps (c :: s) || likeMatch ('%' :: ps) s
  | '_' :: _, [] => false
  | '_' :: ps, _ :: s => likeMatch ps s
  | _ :: _, [] => false
  | p :: ps, c :: s => p == c && likeMatch ps s
termination_by p s => (p.length, s.length)

/-- One row of `posts LEFT JOIN post_categories LEFT JOIN categories`
before the select projection. -/
structure JoinedRow where
  post : Post
  pc : Option PostCategory
  cat : Option Category
deriving DecidableEq, Repr

/-- Evaluation of a pushed predicate on a joined row.  `like(posts.title,
'%'+search+'%')` is case-sensitive; `eq(postCategories.categoryId, c)` is
false on a row whose junction side is NULL. -/
def evalCond (row : JoinedRow) : Cond → Bool
  | Cond.publishedEq b => row.post.published == b
  | Cond.titleLike s => likeMatch ('%' :: (s.data ++ ['%'])) row.post.title.data
  | Cond.categoryIdEq c =>
    match row.pc with
    | some pc => pc.categoryId == c
    | none => false

/-- The `WHERE` clause: all pushed conditions combined with `and(...)`
(no condition means no `WHERE`, i.e. every row passes). -/
def rowPasses (input : PostFilters) (row : JoinedRow) : Bool :=
  (getAllConditions input).all (evalCond row)

/-- The relational store: the four tables the verified routers touch, plus
the serial-column counters. -/
structure DB where
  users : List User
  posts : List Post
  categories : List Category
  postCategories : List PostCategory
  nextUserId : Nat
  nextPostId : Nat
  nextCategoryId : Nat
  nextPcId : Nat
deriving DecidableEq, Repr

/-- `posts LEFT JOIN post_categories ON posts.id = post_categories.post_id
LEFT JOIN categories ON post_categories.category_id = categories.id`:
each post contributes one row per matching junction row (with the
category looked up by id, NULL if absent), or a single all-NULL-joined row
when it has no junction rows. -/
def joinRows (db : DB) : List JoinedRow :=
  db.posts.flatMap (fun p =>
    match db.postCategories.filter (fun pc => pc.postId == p.id) with
    | [] => [{ post := p, pc := none, cat := none }]
    | pcs => pcs.map (fun pc =>
        { post := p, pc := some pc
          cat := db.categories.find? (fun c => c.id == pc.categoryId) }))

/-- Stable insertion step for descending creation-time order. -/
def insertRowDesc (r : JoinedRow) : List JoinedRow → List JoinedRow
  | [] => [r]
  | q :: qs =>
    if q.post.createdAt < r.post.createdAt then r :: q :: qs
    else q :: insertRowDesc r qs

/-- `orderBy(desc(posts.createdAt))`: stable sort of the joined row set,
descending by the post's creation timestamp. -/
def sortRowsDesc : List JoinedRow → List JoinedRow
  | [] => []
  | r :: rs => insertRowDesc r (sortRowsDesc rs)

/-- The select projection of `postRouter.getAll` / `getBySlug`: post
scalars plus the joined category record. -/
def toRaw (row : JoinedRow) : RawPostQueryResult :=
  { id := row.post.id, title := row.post.title, content := row.post.content
    excerpt := row.post.excerpt, slug := row.post.slug
    published := row.post.published, featured := row.post.featured
    viewCount := row.post.viewCount, readingTime := row.post.readingTime
    seoTitle := row.post.seoTitle, seoDescription := row.post.seoDescription
    publishedAt := row.post.publishedAt, createdAt := row.post.createdAt
    updatedAt := row.post.updatedAt, authorId := some row.post.authorId
    categories := row.cat }

/-- The filtered joined row set of `getAll` (join plus `WHERE`). -/
def whereRows (db : DB) (input : PostFilters) : List JoinedRow :=
  (joinRows db).filter (rowPasses input)

/-- The filtered row set in descending creation-time order. -/
def sortedWhereRows (db : DB) (input : PostFilters) : List JoinedRow :=
  sortRowsDesc (whereRows db input)

/-- `LIMIT input.limit OFFSET input.offset` applied to the ordered row set:
skip `offset` rows, return up to `limit`. -/
def pagedRows (db : DB) (input : PostFilters) : List JoinedRow :=
  ((sortedWhereRows db input).drop input.offset).take input.limit

/-- `postRouter.getAll`: run the joined, filtered, ordered, paginated query
and fold the rows with `transformPostQueryResults`. -/
def getAllModel (db : DB) (input : PostFilters) : List PostWithCategories :=
  transformPostQueryResults ((pagedRows db input).map toRaw)

/-- `TRPCError` codes used by the verified routers. -/
inductive TRPCCode where
  | BAD_REQUEST
  | NOT_FOUND
  | CONFLICT
  | INTERNAL_SERVER_ERROR
deriving DecidableEq, Repr

/-- A `TRPCError`: code plus user-facing message. -/
structure TRPCError where
  code : TRPCCode
  message : String
deriving DecidableEq, Repr

/-- `postRouter.getBySlug`: the same join selected with
`where(eq(posts.slug, input))`; NOT_FOUND on an empty row set, otherwise
the first transformed record. -/
def getBySlugModel (db : DB) (slug : String) :
    Except TRPCError PostWithCategories :=
  let results := (joinRows db).filter (fun r => r.post.slug == slug)
  if results.isEmpty then
    .error ⟨TRPCCode.NOT_FOUND, "Post not found"⟩
  else
    match transformPostQueryResults (results.map toRaw) with
    | p :: _ => .ok p
    | [] => .error ⟨TRPCCode.INTERNAL_SERVER_ERROR, "Failed to fetch post"⟩

lemma publishedEq_mem (input : PostFilters) (b : Bool) :
    Cond.publishedEq b ∈ getAllConditions input ↔ input.published = some b := by
  unfold getAllConditions
  cases hp : input.published <;> cases hs : input.search <;>
    cases hc : input.categoryId <;>
    simp [List.mem_append, apply_ite (Cond.publishedEq b ∈ ·)]
  all_goals try (split_ifs <;> simp_all)
  all_goals aesop

lemma titleLike_mem (input : PostFilters) (s : String) :
    Cond.titleLike s ∈ getAllConditions input ↔
      input.search = some s ∧ s ≠ "" := by
  unfold getAllConditions
  cases hp : input.published <;> cases hs : input.search <;>
    cases hc : input.categoryId <;>
    simp [List.mem_append, apply_ite (Cond.titleLike s ∈ ·)]
  all_goals try (split_ifs <;> simp_all)
  all_goals aesop

lemma categoryIdEq_mem (input : PostFilters) (c : Nat) :
    Cond.categoryIdEq c ∈ getAllConditions input ↔
      input.categoryId = some c ∧ c ≠ 0 := by
  unfold getAllConditions
  cases hp : input.published <;> cases hs : input.search <;>
    cases hc : input.categoryId <;>
    simp [List.mem_append, apply_ite (Cond.categoryIdEq c ∈ ·)]
  all_goals try (split_ifs <;> simp_all)
  all_goals aesop

/-- C2 (amended): in `postRouter.getAll`, each of the `published`,
non-empty `search` and non-zero `categoryId` parameters, when present,
contributes exactly one predicate to the query (absent — or falsy —
parameters contribute none), all included predicates are combined with
logical AND, and the `authorId` parameter — although accepted by the
validation schema — contributes no predicate at all: the result is
identical whatever author identifier is supplied. -/
theorem C2_filter_composition (input : PostFilters) :
    (∀ b, Cond.publishedEq b ∈ getAllConditions input ↔
        input.published = some b)
    ∧ (∀ s, Cond.titleLike s ∈ getAllConditions input ↔
        input.search = some s ∧ s ≠ "")
    ∧ (∀ c, Cond.categoryIdEq c ∈ getAllConditions input ↔
        input.categoryId = some c ∧ c ≠ 0)
    ∧ ((getAllConditions input).length =
        (match input.published with
          | some _ => 1
          | none => 0)
        + (match input.search with
          | some s => if s ≠ "" then 1 else 0
          | none => 0)
        + (match input.categoryId with
          | some c => if c ≠ 0 then 1 else 0
          | none => 0))
    ∧ (∀ row, rowPasses input row = true ↔
        ∀ cond ∈ getAllConditions input, evalCond row cond = true)
    ∧ (∀ a db, getAllModel db { input with authorId := a } =
        getAllModel db input) := by
  refine ⟨publishedEq_mem input, titleLike_mem input, categoryIdEq_mem input,
    ?_, ?_, ?_⟩
  · unfold getAllConditions
    cases hp : input.published <;> cases hs : input.search <;>
      cases hc : input.categoryId <;> simp
    all_goals try (split_ifs <;> simp_all)
    all_goals aesop
  · intro row
    simp [rowPasses, List.all_eq_true]
  · intro a db
    rfl

/-- A sample post row (columns not under test are fixed). -/
def samplePost (pid author created : Nat) (slug title : String) : Post :=
  { id := pid, title := title, content := none, excerpt := none
    authorId := author, slug := slug, published := true, featured := false
    viewCount := 0, readingTime := none, seoTitle := none
    seoDescription := none, publishedAt := none, createdAt := created
    updatedAt := 0 }

/-- A store with two posts by two different authors. -/
def twoAuthorDB : DB :=
  { users := [], posts := [samplePost 1 1 10 "aaaa" "AAAAA",
      samplePost 2 2 5 "bbbb" "BBBBB"]
    categories := [], postCategories := []
    nextUserId := 3, nextPostId := 3, nextCategoryId := 1, nextPcId := 1 }

/-- A validated filter input supplying only an author identifier. -/
def authorFilter : PostFilters :=
  { search := none, categoryId := none, published := none, authorId := some 1
    limit := 10, offset := 0 }

/-- C2 counterexample: supplying `authorId = 1` (a validated input) does
NOT restrict `postRouter.getAll` to posts of author 1 — the post of
author 2 is returned as well, because `getAll` never builds a predicate
from `authorId`. -/
theorem C2_counterexample :
    postFiltersSchemaOk authorFilter = true
    ∧ (getAllModel twoAuthorDB authorFilter).map (fun p => p.authorId) =
        [some 1, some 2] := by
  exact ⟨rfl, rfl⟩

/-- C2 witness: at the concrete author-only filter, zero predicates are
built and changing the supplied author identifier leaves the result
unchanged. -/
theorem C2_filter_composition_witness :
    (getAllConditions authorFilter).length = 0
    ∧ getAllModel twoAuthorDB { authorFilter with authorId := some 2 } =
        getAllModel twoAuthorDB authorFilter :=
  ⟨(C2_filter_composition authorFilter).2.2.2.1,
   (C2_filter_composition authorFilter).2.2.2.2.2 (some 2) twoAuthorDB⟩

lemma mem_insertRowDesc (r x : JoinedRow) (l : List JoinedRow) :
    x ∈ insertRowDesc r l ↔ x = r ∨ x ∈ l := by
  induction l with
  | nil => simp [insertRowDesc]
  | cons q qs ih =>
    unfold insertRowDesc
    split
    · simp [List.mem_cons]
    · simp only [List.mem_cons, ih]
      tauto

lemma insertRowDesc_sorted (r : JoinedRow) (l : List JoinedRow)
    (h : l.Pairwise (fun a b => b.post.createdAt ≤ a.post.createdAt)) :
    (insertRowDesc r l).Pairwise
      (fun a b => b.post.createdAt ≤ a.post.createdAt) := by
  induction l with
  | nil => simp [insertRowDesc]
  | cons q qs ih =>
    rcases List.pairwise_cons.mp h with ⟨hq, hqs⟩
    unfold insertRowDesc
    split
    · rename_i hlt
      refine List.pairwise_cons.mpr ⟨?_, h⟩
      intro x hx
      rcases List.mem_cons.mp hx with he | hxm
      · rw [he]
        exact le_of_lt hlt
      · exact le_trans (hq x hxm) (le_of_lt hlt)
    · rename_i hnlt
      refine List.pairwise_cons.mpr ⟨?_, ih hqs⟩
      intro x hx
      rcases (mem_insertRowDesc r x qs).mp hx with he | hxm
      · rw [he]
        exact le_of_not_lt hnlt
      · exact hq x hxm

lemma sortRowsDesc_sorted (l : List JoinedRow) :
    (sortRowsDesc l).Pairwise
      (fun a b => b.post.createdAt ≤ a.post.createdAt) := by
  induction l with
  | nil => simp [sortRowsDesc]
  | cons r rs ih => exact insertRowDesc_sorted r _ ih

lemma pagedRows_sublist (db : DB) (input : PostFilters) :
    (pagedRows db input).Sublist (sortedWhereRows db input) := by
  unfold pagedRows
  exact (List.take_sublist _ _).trans (List.drop_sublist _ _)

lemma getAllModel_eq_group (db : DB) (input : PostFilters) :
    getAllModel db input = groupFirst ((pagedRows db input).map toRaw) := by
  unfold getAllModel
  exact transform_eq_groupFirst _

lemma pagedRows_get? (db : DB) (input : PostFilters) (i : Nat) :
    (pagedRows db input).get? i =
      if i < input.limit then
        (sortedWhereRows db input).get? (input.offset + i)
      else none := by
  unfold pagedRows
  by_cases hi : i < input.limit
  · rw [if_pos hi, List.get?_take hi, List.get?_drop]
  · rw [if_neg hi]
    apply List.get?_eq_none.mpr
    exact le_trans (List.length_take_le _ _) (Nat.le_of_not_lt hi)

/-- C3: for every store and validated filter input (limit in `[1,100]`,
offset a natural number), `postRouter.getAll` returns at most `limit`
records with pairwise-distinct post identifiers, the records are ordered
descending by creation timestamp (the only ordering — no caller-supplied
override exists in the input shape), and the processed page is obtained
from the creation-time-descending ordered row set by skipping exactly the
first `offset` entries and taking up to `limit`. -/
theorem C3_getAll_pagination (db : DB) (input : PostFilters)
    (h : postFiltersSchemaOk input = true) :
    (getAllModel db input).length ≤ input.limit
    ∧ ((getAllModel db input).map (fun p => p.id)).Nodup
    ∧ (getAllModel db input).Pairwise (fun p q => q.createdAt ≤ p.createdAt)
    ∧ (∀ i, (pagedRows db input).get? i =
        if i < input.limit then
          (sortedWhereRows db input).get? (input.offset + i)
        else none)
    ∧ (sortedWhereRows db input).Pairwise
        (fun a b => b.post.createdAt ≤ a.post.createdAt) := by
  have hsorted : (sortedWhereRows db input).Pairwise
      (fun a b => b.post.createdAt ≤ a.post.createdAt) :=
    sortRowsDesc_sorted _
  have hpaged : (pagedRows db input).Pairwise
      (fun a b => b.post.createdAt ≤ a.post.createdAt) :=
    hsorted.sublist (pagedRows_sublist db input)
  have hraw : ((pagedRows db input).map toRaw).Pairwise
      (fun a b => b.createdAt ≤ a.createdAt) := by
    rw [List.pairwise_map]
    exact hpaged
  refine ⟨?_, ?_, ?_, pagedRows_get? db input, hsorted⟩
  · rw [getAllModel_eq_group]
    calc (groupFirst ((pagedRows db input).map toRaw)).length
        ≤ ((pagedRows db input).map toRaw).length := groupFirst_length_le _
      _ = (pagedRows db input).length := List.length_map _ _
      _ ≤ input.limit := by
          unfold pagedRows
          exact List.length_take_le _ _
  · rw [getAllModel_eq_group]
    exact groupFirst_ids_nodup _
  · rw [getAllModel_eq_group]
    exact groupFirst_sorted _ hraw

/-- A store with three posts of increasing creation time. -/
def threePostDB : DB :=
  { users := [], posts := [samplePost 1 1 10 "aaaa" "AAAAA",
      samplePost 2 1 20 "bbbb" "BBBBB", samplePost 3 1 30 "cccc" "CCCCC"]
    categories := [], postCategories := []
    nextUserId := 2, nextPostId := 4, nextCategoryId := 1, nextPcId := 1 }

/-- The boundary filter input `limit = 1, offset = 0` with no filters. -/
def limitOneFilter : PostFilters :=
  { search := none, categoryId := none, published := none, authorId := none
    limit := 1, offset := 0 }

/-- C3 witness: at `limit = 1, offset = 0` against three existing posts the
operation returns at most one record with distinct ids — and concretely
exactly the most recently created post (id 3). -/
theorem C3_getAll_pagination_witness :
    postFiltersSchemaOk limitOneFilter = true
    ∧ (getAllModel threePostDB limitOneFilter).length ≤ limitOneFilter.limit
    ∧ ((getAllModel threePostDB limitOneFilter).map (fun p => p.id)).Nodup
    ∧ (getAllModel threePostDB limitOneFilter).map (fun p => p.id) = [3] :=
  ⟨rfl, (C3_getAll_pagination threePostDB limitOneFilter rfl).1,
    (C3_getAll_pagination threePostDB limitOneFilter rfl).2.1, by decide⟩

lemma alnum_ne_hyphen (c : Char) (h : isAlnumLower c = true) : c ≠ '-' := by
  intro he
  subst he
  exact absurd h (by decide)

lemma alnum_not_ws (c : Char) (h : isAlnumLower c = true) :
    c.isWhitespace = false := by
  by_contra hw
  have hw' : c.isWhitespace = true := by simpa using hw
  have hws : c = ' ' ∨ c = '\t' ∨ c = '\x0d' ∨ c = '\n' := by
    simp [Char.isWhitespace] at hw'
    tauto
  rcases hws with h1 | h1 | h1 | h1 <;> subst h1 <;> exact absurd h (by decide)

lemma any_dropWhile_ws (l : List Char) :
    ((l.dropWhile Char.isWhitespace).any isAlnumLower) = l.any isAlnumLower := by
  induction l with
  | nil => rfl
  | cons c cs ih =>
    cases hc : c.isWhitespace with
    | false => simp [List.dropWhile_cons, hc]
    | true =>
      have hA : isAlnumLower c = false := by
        by_contra h
        have h' : isAlnumLower c = true := by simpa using h
        rw [alnum_not_ws c h'] at hc
        cases hc
      simp [List.dropWhile_cons, hc, hA, ih]

lemma any_reverse_alnum (l : List Char) :
    (l.reverse.any isAlnumLower) = l.any isAlnumLower := by
  simp [List.any_eq_true]

lemma jsTrim_any (l : List Char) :
    (jsTrim l).any isAlnumLower = l.any isAlnumLower := by
  unfold jsTrim
  rw [any_reverse_alnum, any_dropWhile_ws, any_reverse_alnum, any_dropWhile_ws]

lemma jsTrim_subset (l : List Char) : ∀ x ∈ jsTrim l, x ∈ l := by
  intro x hx
  unfold jsTrim at hx
  rw [List.mem_reverse] at hx
  have h1 := (List.dropWhile_sublist (l := (l.dropWhile Char.isWhitespace).reverse)
    (p := Char.isWhitespace)).mem hx
  rw [List.mem_reverse] at h1
  exact (List.dropWhile_sublist (l := l) (p := Char.isWhitespace)).mem h1

lemma collapse_cons_alnum (c : Char) (cs : List Char) (b : Bool)
    (hA : isAlnumLower c = true) :
    collapseAux (c :: cs) b = c :: collapseAux cs false := by
  rw [collapseAux.eq_def]
  simp [hA]

lemma collapse_cons_run (c : Char) (cs : List Char)
    (hA : isAlnumLower c = false) :
    collapseAux (c :: cs) true = collapseAux cs true := by
  rw [collapseAux.eq_def]
  simp [hA]

lemma collapse_cons_start (c : Char) (cs : List Char)
    (hA : isAlnumLower c = false) :
    collapseAux (c :: cs) false = '-' :: collapseAux cs true := by
  rw [collapseAux.eq_def]
  simp [hA]

lemma collapse_charset (l : List Char) :
    ∀ b, (collapseAux l b).all (fun c => isAlnumLower c || c == '-') = true := by
  induction l with
  | nil => intro b; rfl
  | cons c cs ih =>
    intro b
    by_cases hA : isAlnumLower c = true
    · rw [collapse_cons_alnum c cs b hA]
      simp [hA, ih false]
    · have hA' : isAlnumLower c = false := by simpa using hA
      cases b
      · rw [collapse_cons_start c cs hA']
        simp [ih true]
      · rw [collapse_cons_run c cs hA']
        exact ih true

lemma collapse_any (l : List Char) :
    ∀ b, (collapseAux l b).any isAlnumLower = l.any isAlnumLower := by
  induction l with
  | nil => intro b; rfl
  | cons c cs ih =>
    intro b
    have hhy : isAlnumLower '-' = false := by decide
    by_cases hA : isAlnumLower c = true
    · rw [collapse_cons_alnum c cs b hA]
      simp [hA, ih false]
    · have hA' : isAlnumLower c = false := by simpa using hA
      cases b
      · rw [collapse_cons_start c cs hA']
        simp [hA', hhy, ih true]
      · rw [collapse_cons_run c cs hA']
        simp [hA', ih true]

lemma collapse_chain (l : List Char) :
    (∀ b, List.Chain' (fun a b => ¬(a = '-' ∧ b = '-')) (collapseAux l b))
    ∧ (collapseAux l true).head? ≠ some '-' := by
  induction l with
  | nil => exact ⟨fun b => List.chain'_nil, by simp [collapseAux]⟩
  | cons c cs ih =>
    by_cases hA : isAlnumLower c = true
    · refine ⟨fun b => ?_, ?_⟩
      · rw [collapse_cons_alnum c cs b hA]
        refine List.Chain'.cons' (ih.1 false) ?_
        intro y _
        exact fun hy => alnum_ne_hyphen c hA hy.1
      · rw [collapse_cons_alnum c cs true hA]
        simp only [List.head?_cons, ne_eq, Option.some.injEq]
        exact alnum_ne_hyphen c hA
    · have hA' : isAlnumLower c = false := by simpa using hA
      have hstep_t := collapse_cons_run c cs hA'
      have hstep_f := collapse_cons_start c cs hA'
      refine ⟨fun b => ?_, ?_⟩
      · cases b
        · rw [hstep_f]
          refine List.Chain'.cons' (ih.1 true) ?_
          intro y hy
          intro hcontra
          apply ih.2
          rw [← hcontra.2]
          exact hy
        · rw [hstep_t]
          exact ih.1 true
      · rw [hstep_t]
        exact ih.2

lemma collapse_none (l : List Char) (h : ∀ c ∈ l, isAlnumLower c = false) :
    collapseAux l true = []
    ∧ collapseAux l false = if l.isEmpty then [] else ['-'] := by
  induction l with
  | nil => exact ⟨rfl, rfl⟩
  | cons c cs ih =>
    have hc : isAlnumLower c = false := h c (by simp)
    have ihs := ih (fun x hx => h x (by simp [hx]))
    constructor
    · rw [collapse_cons_run c cs hc]
      exact ihs.1
    · rw [collapse_cons_start c cs hc, ihs.1]
      simp

lemma dropLead_cons_hyphen (l : List Char) : dropLeadHyphen ('-' :: l) = l := rfl

lemma dropLead_head_ne (l : List Char) (h : l.head? ≠ some '-') :
    dropLeadHyphen l = l := by
  cases l with
  | nil => rfl
  | cons c cs =>
    by_cases hc : c = '-'
    · subst hc
      exact absurd rfl h
    · unfold dropLeadHyphen
      split
      · rename_i heq
        rw [List.cons.injEq] at heq
        exact absurd heq.1 hc
      · rfl

lemma dropLead_eq_or (l : List Char) :
    dropLeadHyphen l = l ∨ dropLeadHyphen l = l.tail := by
  cases l with
  | nil => left; rfl
  | cons c cs =>
    by_cases hc : c = '-'
    · subst hc
      right
      rfl
    · left
      exact dropLead_head_ne _ (by simpa using hc)

lemma dropLead_head (l : List Char)
    (hch : List.Chain' (fun a b => ¬(a = '-' ∧ b = '-')) l) :
    (dropLeadHyphen l).head? ≠ some '-' := by
  cases l with
  | nil => simp [dropLeadHyphen]
  | cons c cs =>
    by_cases hc : c = '-'
    · subst hc
      rw [dropLead_cons_hyphen]
      cases cs with
      | nil => simp
      | cons d ds =>
        have := (List.chain'_cons.mp hch).1
        simp only [List.head?_cons, ne_eq, Option.some.injEq]
        intro hd
        exact this ⟨rfl, hd⟩
    · rw [dropLead_head_ne _ (by simpa using hc)]
      simpa using hc

lemma dropLead_chain (l : List Char)
    (hch : List.Chain' (fun a b => ¬(a = '-' ∧ b = '-')) l) :
    List.Chain' (fun a b => ¬(a = '-' ∧ b = '-')) (dropLeadHyphen l) := by
  rcases dropLead_eq_or l with he | he <;> rw [he]
  · exact hch
  · exact hch.tail

lemma dropLead_all (l : List Char) (p : Char → Bool) (h : l.all p = true) :
    (dropLeadHyphen l).all p = true := by
  rcases dropLead_eq_or l with he | he <;> rw [he]
  · exact h
  · rw [List.all_eq_true] at h ⊢
    exact fun x hx => h x ((List.tail_sublist l).mem hx)

lemma dropLead_any (l : List Char) :
    (dropLeadHyphen l).any isAlnumLower = l.any isAlnumLower := by
  cases l with
  | nil => rfl
  | cons c cs =>
    by_cases hc : c = '-'
    · subst hc
      rw [dropLead_cons_hyphen]
      simp [isAlnumLower]
    · rw [dropLead_head_ne _ (by simpa using hc)]

lemma chain_reverse_hyphen (l : List Char)
    (hch : List.Chain' (fun a b => ¬(a = '-' ∧ b = '-')) l) :
    List.Chain' (fun a b => ¬(a = '-' ∧ b = '-')) l.reverse := by
  rw [List.chain'_reverse]
  exact hch.imp (fun a b h hab => h ⟨hab.2, hab.1⟩)

lemma trailing_trim_head (l : List Char) (h : l.head? ≠ some '-') :
    ((dropLeadHyphen l.reverse).reverse).head? ≠ some '-' := by
  cases hrev : l.reverse with
  | nil => simp [dropLeadHyphen]
  | cons c v =>
    have hl : l = v.reverse ++ [c] := by
      have := congrArg List.reverse hrev
      simpa using this
    by_cases hc : c = '-'
    · subst hc
      rw [dropLead_cons_hyphen]
      cases hv : v.reverse with
      | nil =>
        rw [hv] at hl
        rw [hl] at h
        exact absurd rfl h
      | cons d ds =>
        rw [hv] at hl
        rw [hl] at h
        simpa using h
    · rw [dropLead_head_ne _ (by simpa using hc), ← hrev, List.reverse_reverse]
      exact h

lemma mk_ne_empty (l : List Char) (h : l ≠ []) : (⟨l⟩ : String) ≠ "" := by
  intro he
  apply h
  have : (⟨l⟩ : String).data = ("" : String).data := by rw [he]
  simpa using this

/-- C9: whenever the lowercased input contains an ASCII letter or digit,
`generateSlug` produces a non-empty string over `[a-z0-9-]` with no
leading or trailing hyphen — i.e. `isValidSlug (generateSlug s) = true`;
when the lowercased input contains no such character, `generateSlug`
returns the empty string. -/
theorem C9_generateSlug_isValidSlug (s : String) :
    ((s.data.map Char.toLower).any isAlnumLower = true →
      generateSlug s ≠ "" ∧ isValidSlug (generateSlug s) = true)
    ∧ ((s.data.map Char.toLower).any isAlnumLower = false →
      generateSlug s = "") := by
  constructor
  · intro h
    have hlany : (jsTrim (s.data.map Char.toLower)).any isAlnumLower = true := by
      rw [jsTrim_any]
      exact h
    set l := jsTrim (s.data.map Char.toLower) with hl
    set r0 := collapseAux l false with hr0
    have hr0any : r0.any isAlnumLower = true := by
      rw [hr0, collapse_any l false]
      exact hlany
    have hr0chain := (collapse_chain l).1 false
    have hr0all := collapse_charset l false
    set r1 := dropLeadHyphen r0 with hr1
    have hr1head : r1.head? ≠ some '-' := dropLead_head r0 hr0chain
    have hr1chain := dropLead_chain r0 hr0chain
    have hr1any : r1.any isAlnumLower = true := by
      rw [hr1, dropLead_any]
      exact hr0any
    have hr1all : r1.all (fun c => isAlnumLower c || c == '-') = true :=
      dropLead_all r0 _ hr0all
    set fin := (dropLeadHyphen r1.reverse).reverse with hfin
    have hgen : generateSlug s = ⟨fin⟩ := rfl
    have hfin_head : fin.head? ≠ some '-' := trailing_trim_head r1 hr1head
    have hfin_last : fin.getLast? ≠ some '-' := by
      rw [hfin]
      rw [← List.head?_reverse, List.reverse_reverse]
      exact dropLead_head r1.reverse (chain_reverse_hyphen r1 hr1chain)
    have hfin_any : fin.any isAlnumLower = true := by
      rw [hfin, any_reverse_alnum, dropLead_any, any_reverse_alnum]
      exact hr1any
    have hfin_ne : fin ≠ [] := by
      intro he
      rw [he] at hfin_any
      simp at hfin_any
    have hfin_all : fin.all (fun c => isAlnumLower c || c == '-') = true := by
      rw [hfin]
      rw [List.all_eq_true] at hr1all ⊢
      intro x hx
      apply hr1all
      rw [List.mem_reverse] at hx
      rcases dropLead_eq_or r1.reverse with he | he <;> rw [he] at hx
      · rw [← List.mem_reverse, List.reverse_reverse] at hx
        exact hx
      · have := (List.tail_sublist r1.reverse).mem hx
        rw [List.mem_reverse] at this
        exact this
    refine ⟨by rw [hgen]; exact mk_ne_empty fin hfin_ne, ?_⟩
    rw [hgen]
    unfold isValidSlug
    have hdata : (⟨fin⟩ : String).data = fin := rfl
    rw [hdata]
    have h1 : fin.isEmpty = false := by
      cases hfe : fin with
      | nil => exact absurd hfe hfin_ne
      | cons a as => rfl
    rw [h1, hfin_all]
    have h3 : (fin.head? == some '-') = false := by
      simpa using hfin_head
    have h4 : (fin.getLast? == some '-') = false := by
      simpa using hfin_last
    rw [h3, h4]
    rfl
  · intro h
    have hmem : ∀ c ∈ jsTrim (s.data.map Char.toLower),
        isAlnumLower c = false := by
      intro c hc
      have := List.any_eq_false.mp h
      exact by simpa using this c (jsTrim_subset _ c hc)
    have := (collapse_none _ hmem).2
    unfold generateSlug
    rw [this]
    cases hje : (jsTrim (s.data.map Char.toLower)).isEmpty <;> simp [hje] <;> rfl

/-- C9 witness: a lowercased input with an ASCII letter yields a valid
non-empty slug, and an input with no alphanumeric character yields the
empty string — both at concrete inputs. -/
theorem C9_generateSlug_isValidSlug_witness :
    (("Hello!".data.map Char.toLower).any isAlnumLower = true
      ∧ generateSlug "Hello!" ≠ ""
      ∧ isValidSlug (generateSlug "Hello!") = true)
    ∧ (("@@".data.map Char.toLower).any isAlnumLower = false
      ∧ generateSlug "@@" = "") :=
  ⟨⟨by decide, (C9_generateSlug_isValidSlug "Hello!").1 (by decide)⟩,
   ⟨by decide, (C9_generateSlug_isValidSlug "@@").2 (by decide)⟩⟩

/-- The validated input of `postRouter.create` (`createPostSchema`). -/
structure CreatePostInput where
  title : String
  content : String
  published : Bool
  authorId : Option Nat
  categoryIds : List Nat
deriving DecidableEq, Repr

/-- The validated input of `postRouter.update` (`updatePostSchema`): the
post id plus any subset of title / content / published / categoryIds. -/
structure UpdatePostInput where
  id : Nat
  title : Option String
  content : Option String
  published : Option Bool
  categoryIds : Option (List Nat)
deriving DecidableEq, Repr

/-- `updatePostSchema` from `src/lib/validations.ts`: positive id, title
in `[1,255]` characters when present, non-empty content when present,
positive category ids when present. -/
def updatePostSchemaOk (i : UpdatePostInput) : Bool :=
  1 ≤ i.id
  && (match i.title with
    | some t => 1 ≤ t.length && t.length ≤ 255
    | none => true)
  && (match i.content with
    | some c => 1 ≤ c.length
    | none => true)
  && (match i.categoryIds with
    | some l => l.all (fun c => 1 ≤ c)
    | none => true)

/-- The validated input of `categoryRouter.create` (`createCategorySchema`). -/
structure CreateCategoryInput where
  name : String
  description : Option String
deriving DecidableEq, Repr

/-- Postgres error classes surfaced to the drivers: `23505` (unique
violation), `23503` (foreign-key violation), `23514` (check violation). -/
inductive PgCode where
  | uniqueViolation
  | fkViolation
  | checkViolation
deriving DecidableEq, Repr

/-- Representative driver message text for each error class. -/
def pgMessage : PgCode → String
  | .uniqueViolation => "duplicate key value violates unique constraint"
  | .fkViolation => "violates foreign key constraint"
  | .checkViolation => "violates check constraint"

/-- What a `catch (error)` block can receive: a database failure or a
`TRPCError` thrown inside the `try`. -/
inductive RaisedError where
  | pg : PgCode → RaisedError
  | trpc : TRPCError → RaisedError
deriving DecidableEq, Repr

/-- The check constraints of the `posts` table (`title_min_length >= 5`,
`slug_min_length >= 3`, positive reading time; `view_count >= 0` holds by
the `Nat` type) together with the varchar column widths. -/
def postChecksOk (p : Post) : Bool :=
  5 ≤ p.title.length && p.title.length ≤ 200
  && 3 ≤ p.slug.length && p.slug.length ≤ 250
  && (match p.excerpt with
    | some e => e.length ≤ 500
    | none => true)
  && (match p.readingTime with
    | some rt => 0 < rt
    | none => true)

/-- `INSERT INTO posts`: check constraints, then the unique slug index,
then the author foreign key; on success the row is appended and the
serial counter advances. -/
def insertPostRow (db : DB) (p : Post) : Except PgCode DB :=
  if postChecksOk p = false then .error .checkViolation
  else if db.posts.any (fun q => q.slug == p.slug) then .error .uniqueViolation
  else if !(db.users.any (fun u => u.id == p.authorId)) then .error .fkViolation
  else .ok { db with posts := db.posts ++ [p], nextPostId := db.nextPostId + 1 }

/-- Character class of the local part of the users email check regex. -/
def isEmailLocalChar (c : Char) : Bool :=
  c.isAlpha || c.isDigit || c == '.' || c == '_' || c == '%' || c == '+'
    || c == '-'

/-- Character class of the domain part of the users email check regex. -/
def isEmailDomainChar (c : Char) : Bool :=
  c.isAlpha || c.isDigit || c == '.' || c == '-'

/-- Character class of the top-level-domain part (`[A-Z|a-z]`). -/
def isEmailTldChar (c : Char) : Bool :=
  c.isAlpha || c == '|'

/-- The `email_format` check constraint
`^[A-Za-z0-9._%+-]+@[A-Za-z0-9.-]+\.[A-Z|a-z]{2,}$`: since `@` appears in
no class and `.` not in the TLD class, a match exists iff splitting at
the single `@` and at the last `.` of the domain side succeeds. -/
def emailFormatOk (e : String) : Bool :=
  match e.split (fun c => c == '@') with
  | [loc, rest] =>
    (!loc.data.isEmpty) && loc.data.all isEmailLocalChar
    && (match (rest.split (fun c => c == '.')).reverse with
      | tld :: seg :: segs =>
        2 ≤ tld.length && tld.data.all isEmailTldChar
        && (let domain := String.intercalate "." (seg :: segs).reverse
            1 ≤ domain.length && domain.data.all isEmailDomainChar)
      | _ => false)
  | _ => false

/-- The check constraints and varchar widths of the `users` table. -/
def userChecksOk (u : User) : Bool :=
  3 ≤ u.username.length && u.username.length ≤ 50
  && u.email.length ≤ 320 && emailFormatOk u.email

/-- `INSERT INTO users`: checks, then the unique username and email
indexes. -/
def insertUserRow (db : DB) (u : User) : Except PgCode DB :=
  if userChecksOk u = false then .error .checkViolation
  else if db.users.any (fun v => v.username == u.username) then
    .error .uniqueViolation
  else if db.users.any (fun v => v.email == u.email) then
    .error .uniqueViolation
  else .ok { db with users := db.users ++ [u], nextUserId := db.nextUserId + 1 }

/-- The junction rows produced by one multi-row `INSERT INTO
post_categories`, with consecutive serial ids. -/
def pcRows (postId startId : Nat) (now : Int) : List Nat → List PostCategory
  | [] => []
  | c :: cs =>
    { id := startId, postId := postId, categoryId := c, createdAt := now }
      :: pcRows postId (startId + 1) now cs

/-- `INSERT INTO post_categories (...) VALUES ...`: the category and post
foreign keys, then the unique (post_id, category_id) index (against the
existing rows and within the inserted batch); all-or-nothing. -/
def insertPcRows (db : DB) (postId : Nat) (l : List Nat) (now : Int) :
    Except PgCode DB :=
  if !(l.all (fun cid => db.categories.any (fun c => c.id == cid))) then
    .error .fkViolation
  else if !(db.posts.any (fun p => p.id == postId)) then .error .fkViolation
  else if (l.any (fun cid => db.postCategories.any
        (fun pc => pc.postId == postId && pc.categoryId == cid)))
      || !(decide l.Nodup) then
    .error .uniqueViolation
  else .ok { db with
    postCategories := db.postCategories ++ pcRows postId db.nextPcId now l
    nextPcId := db.nextPcId + l.length }

/-- Message of the early `BAD_REQUEST` thrown by the defensive
`postRouter.create` when no local user exists and no Clerk context is
available. -/
def noLocalUserMsg : String :=
  "No local database user available. Please seed a user or sign in so a database user can be created."

/-- Message of the mapped `23503` (foreign-key) error in the defensive
`postRouter.create`. -/
def depMissingMsg : String :=
  "Failed to create post: related record not found (author or category). Ensure your local DB has a matching user and categories."

/-- Message of the mapped `23505` (unique) error in the defensive
`postRouter.create`. -/
def slugConflictMsg : String :=
  "Failed to create post: a post with the same slug already exists. Try changing the title."

/-- The `catch` block of the defensive `postRouter.create`: code `23503`
maps to `BAD_REQUEST` (dependency missing), `23505` to `CONFLICT`; every
other raised error — including a `TRPCError` thrown inside the `try`,
whose `.code` is none of the two Postgres codes — falls through to
`INTERNAL_SERVER_ERROR`, with the underlying message appended only in
development. -/
def mapCreateCatch (isDev : Bool) : RaisedError → TRPCError
  | .pg .fkViolation => ⟨.BAD_REQUEST, depMissingMsg⟩
  | .pg .uniqueViolation => ⟨.CONFLICT, slugConflictMsg⟩
  | .pg code =>
    ⟨.INTERNAL_SERVER_ERROR,
      if isDev then "Failed to create post: " ++ pgMessage code
      else "Failed to create post"⟩
  | .trpc e =>
    ⟨.INTERNAL_SERVER_ERROR,
      if isDev then "Failed to create post: " ++ e.message
      else "Failed to create post"⟩

/-- The fresh post row inserted by `postRouter.create`: input fields plus
the schema defaults (`featured false`, `viewCount 0`, `readingTime 1`,
timestamps `defaultNow`). -/
def mkNewPost (pid : Nat) (title content slug : String) (published : Bool)
    (authorId : Nat) (now : Int) : Post :=
  { id := pid, title := title, content := some content, excerpt := none
    authorId := authorId, slug := slug, published := published
    featured := false, viewCount := 0, readingTime := some 1
    seoTitle := none, seoDescription := none, publishedAt := none
    createdAt := now, updatedAt := now }

/-- The user-ensure step of the defensive `postRouter.create`: use the
placeholder user id 1 if it exists; otherwise create a minimal user from
the Clerk id, or throw `BAD_REQUEST` when there is no Clerk context. -/
def ensureUser (db : DB) (clerkId : Option String) :
    Except RaisedError (Nat × DB) :=
  if db.users.any (fun u => u.id == 1) then .ok (1, db)
  else
    match clerkId with
    | some cid =>
      let u : User := { id := db.nextUserId
                        username := "clerk_" ++ cid.take 8
                        email := cid ++ "@clerk.local" }
      match insertUserRow db u with
      | .ok db' => .ok (u.id, db')
      | .error code => .error (.pg code)
    | none => .error (.trpc ⟨.BAD_REQUEST, noLocalUserMsg⟩)

/-- The `try` body of the defensive `postRouter.create`: slug generation,
user-ensure, post insert, then junction inserts when category ids were
supplied. -/
def createPostBody (db : DB) (input : CreatePostInput)
    (clerkId : Option String) (now : Int) : Except RaisedError (Post × DB) :=
  let slug := generateSlug input.title
  match ensureUser db clerkId with
  | .error e => .error e
  | .ok (uid, db1) =>
    let newPost := mkNewPost db1.nextPostId input.title input.content slug
      input.published uid now
    match insertPostRow db1 newPost with
    | .error code => .error (.pg code)
    | .ok db2 =>
      if input.categoryIds.length > 0 then
        match insertPcRows db2 newPost.id input.categoryIds now with
        | .error code => .error (.pg code)
        | .ok db3 => .ok (newPost, db3)
      else .ok (newPost, db2)

/-- The defensive duplicate of `postRouter.create` (the implementation
with the Postgres error mapping): run the `try` body, mapping every
raised error through the `catch` block. -/
def createPostDefensive (db : DB) (input : CreatePostInput)
    (clerkId : Option String) (isDev : Bool) (now : Int) :
    Except TRPCError (Post × DB) :=
  match createPostBody db input clerkId now with
  | .ok r => .ok r
  | .error e => .error (mapCreateCatch isDev e)

/-- The check constraints and varchar widths of the `categories` table
(`name >= 2`, `slug >= 2`, non-negative post count). -/
def categoryChecksOk (c : Category) : Bool :=
  2 ≤ c.name.length && c.name.length ≤ 100
  && 2 ≤ c.slug.length && c.slug.length ≤ 120
  && 0 ≤ c.postCount

/-- `INSERT INTO categories`: checks, unique name and slug indexes, parent
foreign key. -/
def insertCategoryRow (db : DB) (c : Category) : Except PgCode DB :=
  if categoryChecksOk c = false then .error .checkViolation
  else if db.categories.any (fun d => d.name == c.name) then
    .error .uniqueViolation
  else if db.categories.any (fun d => d.slug == c.slug) then
    .error .uniqueViolation
  else if (match c.parentId with
    | some pid => !(db.categories.any (fun d => d.id == pid))
    | none => false) then .error .fkViolation
  else .ok { db with
    categories := db.categories ++ [c]
    nextCategoryId := db.nextCategoryId + 1 }

/-- The fresh category row inserted by `categoryRouter.create`: name,
description and generated slug plus the schema defaults. -/
def mkNewCategory (cid : Nat) (name : String) (description : Option String)
    (slug : String) (now : Int) : Category :=
  { id := cid, name := name, slug := slug, description := description
    parentId := none, color := none, icon := none, isActive := true
    sortOrder := 0, postCount := 0, createdAt := now, updatedAt := now }

/-- `categoryRouter.create`: generate the slug from the name, insert; every
failure collapses to a generic `INTERNAL_SERVER_ERROR` (its `catch`
wraps everything). -/
def createCategory (db : DB) (input : CreateCategoryInput) (now : Int) :
    Except TRPCError (Category × DB) :=
  let slug := generateSlug input.name
  let c := mkNewCategory db.nextCategoryId input.name input.description slug now
  match insertCategoryRow db c with
  | .ok db' => .ok (c, db')
  | .error _ => .error ⟨.INTERNAL_SERVER_ERROR, "Failed to create category"⟩

/-- The `updatePayload` of `postRouter.update`: spread the supplied fields,
regenerate the slug when a (truthy) title is supplied, and always stamp
`updatedAt`. -/
def applyUpdatePayload (p : Post) (input : UpdatePostInput) (now : Int) :
    Post :=
  let p1 := match input.title with
    | some t => { p with title := t }
    | none => p
  let p2 := match input.content with
    | some c => { p1 with content := some c }
    | none => p1
  let p3 := match input.published with
    | some b => { p2 with published := b }
    | none => p2
  let p4 := match input.title with
    | some t => if t ≠ "" then { p3 with slug := generateSlug t } else p3
    | none => p3
  { p4 with updatedAt := now }

/-- `postRouter.update`: update the row (NOT_FOUND when the id matches no
post; constraint failures collapse to a generic INTERNAL error in the
`catch`), then — when a category id list was supplied, even empty —
delete all junction rows of the post and insert the new set. -/
def updatePost (db : DB) (input : UpdatePostInput) (now : Int) :
    Except TRPCError (Post × DB) :=
  match db.posts.find? (fun p => p.id == input.id) with
  | none => .error ⟨.NOT_FOUND, "Post not found"⟩
  | some old =>
    let p' := applyUpdatePayload old input now
    if postChecksOk p' = false then
      .error ⟨.INTERNAL_SERVER_ERROR, "Failed to update post"⟩
    else if db.posts.any (fun q => q.id != input.id && q.slug == p'.slug) then
      .error ⟨.INTERNAL_SERVER_ERROR, "Failed to update post"⟩
    else
      let db1 := { db with
        posts := db.posts.map (fun q => if q.id == input.id then p' else q) }
      match input.categoryIds with
      | none => .ok (p', db1)
      | some l =>
        let db2 := { db1 with
          postCategories :=
            db1.postCategories.filter (fun pc => pc.postId != input.id) }
        if l.length > 0 then
          match insertPcRows db2 input.id l now with
          | .ok db3 => .ok (p', db3)
          | .error _ => .error ⟨.INTERNAL_SERVER_ERROR, "Failed to update post"⟩
        else .ok (p', db2)

/-- `postRouter.delete`: delete the row by id (NOT_FOUND when absent,
leaving the store as it was); the junction rows of the post are removed
by the `ON DELETE CASCADE` of `post_categories_post_fk`; the deleted row
is returned. -/
def deletePost (db : DB) (postId : Nat) : Except TRPCError (Post × DB) :=
  match db.posts.find? (fun p => p.id == postId) with
  | none => .error ⟨.NOT_FOUND, "Post not found"⟩
  | some p =>
    .ok (p, { db with
      posts := db.posts.filter (fun q => q.id != postId)
      postCategories :=
        db.postCategories.filter (fun pc => pc.postId != postId) })

lemma insertPostRow_ok (db : DB) (q : Post) (db' : DB)
    (h : insertPostRow db q = .ok db') :
    db'.posts = db.posts ++ [q] ∧ db'.postCategories = db.postCategories
    ∧ db'.users = db.users ∧ db'.categories = db.categories
    ∧ db'.nextPcId = db.nextPcId := by
  unfold insertPostRow at h
  split_ifs at h
  cases h
  exact ⟨rfl, rfl, rfl, rfl, rfl⟩

lemma insertPcRows_ok (db : DB) (pid : Nat) (l : List Nat) (now : Int)
    (db' : DB) (h : insertPcRows db pid l now = .ok db') :
    db'.postCategories = db.postCategories ++ pcRows pid db.nextPcId now l
    ∧ db'.posts = db.posts ∧ db'.users = db.users
    ∧ db'.categories = db.categories := by
  unfold insertPcRows at h
  split_ifs at h
  cases h
  exact ⟨rfl, rfl, rfl, rfl⟩

lemma insertCategoryRow_ok (db : DB) (c : Category) (db' : DB)
    (h : insertCategoryRow db c = .ok db') :
    db'.categories = db.categories ++ [c] ∧ db'.posts = db.posts
    ∧ db'.users = db.users ∧ db'.postCategories = db.postCategories := by
  unfold insertCategoryRow at h
  split_ifs at h
  cases h
  exact ⟨rfl, rfl, rfl, rfl⟩

lemma createPostBody_ok_slug (db : DB) (input : CreatePostInput)
    (clerkId : Option String) (now : Int) (p : Post) (db' : DB)
    (h : createPostBody db input clerkId now = .ok (p, db')) :
    p.slug = generateSlug input.title ∧ p ∈ db'.posts := by
  unfold createPostBody at h
  cases hu : ensureUser db clerkId with
  | error e => rw [hu] at h; exact Except.noConfusion h
  | ok r =>
    rw [hu] at h
    obtain ⟨uid, db1⟩ := r
    dsimp only at h
    cases hins : insertPostRow db1 (mkNewPost db1.nextPostId input.title
        input.content (generateSlug input.title) input.published uid now) with
    | error code => rw [hins] at h; exact Except.noConfusion h
    | ok db2 =>
      rw [hins] at h
      dsimp only at h
      have hposts2 := (insertPostRow_ok _ _ _ hins).1
      split_ifs at h
      · cases hpc : insertPcRows db2 (mkNewPost db1.nextPostId input.title
            input.content (generateSlug input.title) input.published uid
            now).id input.categoryIds now with
        | error code => rw [hpc] at h; exact Except.noConfusion h
        | ok db3 =>
          rw [hpc] at h
          cases h
          have hposts3 := (insertPcRows_ok _ _ _ _ _ hpc).2.1
          refine ⟨rfl, ?_⟩
          rw [hposts3, hposts2]
          simp
      · cases h
        refine ⟨rfl, ?_⟩
        rw [hposts2]
        simp

/-- C8: `generateSlug` lowercases, collapses non-alphanumeric runs to one
hyphen and trims edge hyphens — `"Hello World!!" ↦ "hello-world"`,
`"Tech & Science" ↦ "tech-science"` — and both `postRouter.create` and
`categoryRouter.create` store exactly the slug generated this way from
the title resp. name. -/
theorem C8_slug_roundtrip :
    generateSlug "Hello World!!" = "hello-world"
    ∧ generateSlug "Tech & Science" = "tech-science"
    ∧ (∀ db input clerkId isDev now p db',
        createPostDefensive db input clerkId isDev now = .ok (p, db') →
        p.slug = generateSlug input.title ∧ p ∈ db'.posts)
    ∧ (∀ db input now c db',
        createCategory db input now = .ok (c, db') →
        c.slug = generateSlug input.name ∧ c ∈ db'.categories) := by
  refine ⟨by decide, by decide, ?_, ?_⟩
  · intro db input clerkId isDev now p db' h
    unfold createPostDefensive at h
    cases hb : createPostBody db input clerkId now with
    | error e => rw [hb] at h; exact Except.noConfusion h
    | ok r =>
      rw [hb] at h
      obtain ⟨p0, db0⟩ := r
      cases h
      exact createPostBody_ok_slug db input clerkId now _ _ hb
  · intro db input now c db' h
    unfold createCategory at h
    dsimp only at h
    cases hins : insertCategoryRow db (mkNewCategory db.nextCategoryId
        input.name input.description (generateSlug input.name) now) with
    | error code => rw [hins] at h; exact Except.noConfusion h
    | ok db2 =>
      rw [hins] at h
      cases h
      have hcats := (insertCategoryRow_ok _ _ _ hins).1
      refine ⟨rfl, ?_⟩
      rw [hcats]
      simp

/-- A seeded placeholder user with id 1. -/
def slugUser : User := { id := 1, username := "admin", email := "admin@example.com" }

/-- A store holding only the placeholder user. -/
def seededDB : DB :=
  { users := [slugUser], posts := [], categories := [], postCategories := []
    nextUserId := 2, nextPostId := 1, nextCategoryId := 1, nextPcId := 1 }

/-- The create-post input of the round-trip scenario. -/
def helloInput : CreatePostInput :=
  { title := "Hello World!!", content := "Some content here"
    published := false, authorId := none, categoryIds := [] }

/-- The concrete result of creating the round-trip post. -/
def helloResult : Post × DB :=
  match createPostDefensive seededDB helloInput none false 7 with
  | .ok r => r
  | .error _ => (samplePost 0 0 0 "x" "x", seededDB)

/-- The create-category input of the round-trip scenario. -/
def techInput : CreateCategoryInput :=
  { name := "Tech & Science", description := none }

/-- The concrete result of creating the round-trip category. -/
def techResult : Category × DB :=
  match createCategory seededDB techInput 7 with
  | .ok r => r
  | .error _ => (sampleCategory 0, seededDB)

/-- C8 witness: both creates succeed at the concrete round-trip inputs and
store the generated slug. -/
theorem C8_slug_roundtrip_witness :
    createPostDefensive seededDB helloInput none false 7 =
      .ok (helloResult.1, helloResult.2)
    ∧ (helloResult.1.slug = generateSlug helloInput.title
        ∧ helloResult.1 ∈ helloResult.2.posts)
    ∧ createCategory seededDB techInput 7 = .ok (techResult.1, techResult.2)
    ∧ (techResult.1.slug = generateSlug techInput.name
        ∧ techResult.1 ∈ techResult.2.categories) :=
  ⟨rfl,
   C8_slug_roundtrip.2.2.1 seededDB helloInput none false 7 helloResult.1
     helloResult.2 rfl,
   rfl,
   C8_slug_roundtrip.2.2.2 seededDB techInput 7 techResult.1 techResult.2 rfl⟩

/-- A store with no rows at all. -/
def emptyDB : DB :=
  { users := [], posts := [], categories := [], postCategories := []
    nextUserId := 1, nextPostId := 1, nextCategoryId := 1, nextPcId := 1 }

/-- C4 counterexample: when the author reference cannot be satisfied (no
user id 1 exists and there is no authenticated context), the defensive
`postRouter.create` does NOT fail with a dependency-not-found condition:
the internally thrown BAD_REQUEST is swallowed by the catch-all (its
`.code` matches neither `23503` nor `23505`) and re-surfaces as the
generic `INTERNAL_SERVER_ERROR` infrastructure error — with the plain
"Failed to create post" message outside development. -/
theorem C4_counterexample :
    createPostDefensive emptyDB helloInput none false 0 =
      .error ⟨TRPCCode.INTERNAL_SERVER_ERROR, "Failed to create post"⟩
    ∧ createPostDefensive emptyDB helloInput none true 0 =
      .error ⟨TRPCCode.INTERNAL_SERVER_ERROR,
        "Failed to create post: " ++ noLocalUserMsg⟩ :=
  ⟨rfl, rfl⟩

lemma ensureUser_user1 (db : DB) (clerkId : Option String)
    (h : db.users.any (fun u => u.id == 1) = true) :
    ensureUser db clerkId = .ok (1, db) := by
  unfold ensureUser
  rw [if_pos h]

lemma ensureUser_no_user_no_clerk (db : DB)
    (h : db.users.any (fun u => u.id == 1) = false) :
    ensureUser db none =
      .error (.trpc ⟨TRPCCode.BAD_REQUEST, noLocalUserMsg⟩) := by
  unfold ensureUser
  rw [if_neg (by simp [h])]

lemma insertPostRow_unique (db : DB) (p : Post)
    (hck : postChecksOk p = true)
    (hsl : db.posts.any (fun q => q.slug == p.slug) = true) :
    insertPostRow db p = .error .uniqueViolation := by
  unfold insertPostRow
  rw [if_neg (by simp [hck]), if_pos hsl]

/-- C4 (amended): in the defensive `postRouter.create`, a generated-slug
collision with an existing post (with the author satisfiable and the row
checks passing) fails with the structured CONFLICT duplicate error — not
a generic infrastructure error; database-surfaced constraint violations
are re-mapped (`23503` foreign-key to BAD_REQUEST dependency-missing,
`23505` unique to CONFLICT); but when the author reference cannot be
satisfied (no placeholder user and no authentication context) the
operation fails with the generic INTERNAL_SERVER_ERROR (the underlying
message only appended in development), because the catch-all swallows the
internally thrown TRPCError. -/
theorem C4_create_error_mapping :
    (∀ db input clerkId isDev now,
      db.users.any (fun u => u.id == 1) = true →
      postChecksOk (mkNewPost db.nextPostId input.title input.content
        (generateSlug input.title) input.published 1 now) = true →
      db.posts.any (fun q => q.slug == generateSlug input.title) = true →
      createPostDefensive db input clerkId isDev now =
        .error ⟨TRPCCode.CONFLICT, slugConflictMsg⟩)
    ∧ (∀ db input isDev now,
      db.users.any (fun u => u.id == 1) = false →
      createPostDefensive db input none isDev now =
        .error ⟨TRPCCode.INTERNAL_SERVER_ERROR,
          if isDev then "Failed to create post: " ++ noLocalUserMsg
          else "Failed to create post"⟩)
    ∧ (∀ isDev,
      mapCreateCatch isDev (.pg .fkViolation) =
        ⟨TRPCCode.BAD_REQUEST, depMissingMsg⟩
      ∧ mapCreateCatch isDev (.pg .uniqueViolation) =
        ⟨TRPCCode.CONFLICT, slugConflictMsg⟩) := by
  refine ⟨?_, ?_, fun isDev => ⟨rfl, rfl⟩⟩
  · intro db input clerkId isDev now h1 h2 h3
    have h3' : (db.posts.any (fun q => q.slug ==
        (mkNewPost db.nextPostId input.title input.content
          (generateSlug input.title) input.published 1 now).slug)) = true := h3
    unfold createPostDefensive createPostBody
    rw [ensureUser_user1 db clerkId h1]
    dsimp only
    rw [insertPostRow_unique db _ h2 h3']
    rfl
  · intro db input isDev now h1
    unfold createPostDefensive createPostBody
    rw [ensureUser_no_user_no_clerk db h1]
    rfl

/-- A store holding the placeholder user and a post whose slug collides
with the slug generated from the round-trip title. -/
def conflictDB : DB :=
  { users := [slugUser]
    posts := [samplePost 1 1 0 "hello-world" "Hello"]
    categories := [], postCategories := []
    nextUserId := 2, nextPostId := 2, nextCategoryId := 1, nextPcId := 1 }

/-- C4 witness: the slug collision at a concrete store yields CONFLICT,
and the author-unsatisfiable case at a concrete store yields the generic
INTERNAL error. -/
theorem C4_create_error_mapping_witness :
    createPostDefensive conflictDB helloInput none false 3 =
      .error ⟨TRPCCode.CONFLICT, slugConflictMsg⟩
    ∧ createPostDefensive emptyDB helloInput none false 3 =
      .error ⟨TRPCCode.INTERNAL_SERVER_ERROR, "Failed to create post"⟩ :=
  ⟨C4_create_error_mapping.1 conflictDB helloInput none false 3 (by decide)
      (by decide) (by decide),
   C4_create_error_mapping.2.1 emptyDB helloInput false 3 (by decide)⟩

lemma pcRows_map_categoryId (pid : Nat) (now : Int) :
    ∀ (l : List Nat) (n : Nat),
      (pcRows pid n now l).map (fun pc => pc.categoryId) = l := by
  intro l
  induction l with
  | nil => intro n; rfl
  | cons c cs ih =>
    intro n
    simp [pcRows, ih (n + 1)]

lemma pcRows_postId (pid : Nat) (now : Int) :
    ∀ (l : List Nat) (n : Nat), ∀ pc ∈ pcRows pid n now l, pc.postId = pid := by
  intro l
  induction l with
  | nil => intro n pc hpc; simp [pcRows] at hpc
  | cons c cs ih =>
    intro n pc hpc
    rcases List.mem_cons.mp hpc with he | hm
    · rw [he]
    · exact ih (n + 1) pc hm

lemma pcRows_pairs (pid : Nat) (now : Int) :
    ∀ (l : List Nat) (n : Nat),
      (pcRows pid n now l).map (fun pc => (pc.postId, pc.categoryId)) =
        l.map (fun c => (pid, c)) := by
  intro l
  induction l with
  | nil => intro n; rfl
  | cons c cs ih =>
    intro n
    simp [pcRows, ih (n + 1)]

lemma pcRows_filter_out (pid : Nat) (now : Int) (l : List Nat) (n : Nat) :
    (pcRows pid n now l).filter (fun pc => pc.postId != pid) = [] := by
  rw [List.filter_eq_nil]
  intro pc hpc
  simp [pcRows_postId pid now l n pc hpc]

lemma pcRows_filter_self (pid : Nat) (now : Int) (l : List Nat) (n : Nat) :
    (pcRows pid n now l).filter (fun pc => pc.postId == pid) =
      pcRows pid n now l := by
  rw [List.filter_eq_self]
  intro pc hpc
  simp [pcRows_postId pid now l n pc hpc]

lemma filter_ne_filter_eq (pcs : List PostCategory) (pid : Nat) :
    (pcs.filter (fun pc => pc.postId != pid)).filter
      (fun pc => pc.postId == pid) = [] := by
  rw [List.filter_eq_nil]
  intro pc hpc
  have := (List.mem_filter.mp hpc).2
  simpa using this

lemma filter_ne_idem (pcs : List PostCategory) (pid : Nat) :
    (pcs.filter (fun pc => pc.postId != pid)).filter
      (fun pc => pc.postId != pid) = pcs.filter (fun pc => pc.postId != pid) := by
  rw [List.filter_eq_self]
  intro pc hpc
  exact (List.mem_filter.mp hpc).2

lemma updatePost_ok_spec (db : DB) (input : UpdatePostInput) (now : Int)
    (p' : Post) (db' : DB) (hup : updatePost db input now = .ok (p', db')) :
    ∃ old, db.posts.find? (fun p => p.id == input.id) = some old
      ∧ p' = applyUpdatePayload old input now
      ∧ db'.posts = db.posts.map (fun q => if q.id == input.id then p' else q)
      ∧ db'.categories = db.categories ∧ db'.users = db.users
      ∧ (input.categoryIds = none → db'.postCategories = db.postCategories)
      ∧ (∀ l, input.categoryIds = some l →
          db'.postCategories =
            db.postCategories.filter (fun pc => pc.postId != input.id)
              ++ pcRows input.id db.nextPcId now l) := by
  unfold updatePost at hup
  cases hfind : db.posts.find? (fun p => p.id == input.id) with
  | none =>
    rw [hfind] at hup
    exact Except.noConfusion hup
  | some old =>
    rw [hfind] at hup
    dsimp only at hup
    split_ifs at hup with hck hsl
    all_goals try exact Except.noConfusion hup
    cases hcat : input.categoryIds with
      | none =>
        rw [hcat] at hup
        dsimp only at hup
        cases hup
        exact ⟨old, rfl, rfl, rfl, rfl, rfl, fun _ => rfl,
          fun l hl => Option.noConfusion hl⟩
      | some l =>
        rw [hcat] at hup
        dsimp only at hup
        by_cases hl : l.length > 0
        · rw [if_pos hl] at hup
          cases hpc : insertPcRows
              { db with
                posts := db.posts.map (fun q =>
                  if q.id == input.id then applyUpdatePayload old input now
                  else q)
                postCategories :=
                  db.postCategories.filter (fun pc => pc.postId != input.id) }
              input.id l now with
          | error code =>
            rw [hpc] at hup
            exact Except.noConfusion hup
          | ok db3 =>
            rw [hpc] at hup
            cases hup
            obtain ⟨hpcs3, hposts3, husers3, hcats3⟩ :=
              insertPcRows_ok _ _ _ _ _ hpc
            refine ⟨old, rfl, rfl, ?_, ?_, ?_, fun hn => Option.noConfusion hn,
              fun l' hl' => ?_⟩
            · rw [hposts3]
            · rw [hcats3]
            · rw [husers3]
            · cases hl'
              rw [hpcs3]
        · rw [if_neg hl] at hup
          cases hup
          have hle : l = [] := by
            cases l with
            | nil => rfl
            | cons a as => exact absurd (by simp) hl
          refine ⟨old, rfl, rfl, rfl, rfl, rfl,
            fun hn => Option.noConfusion hn, fun l' hl' => ?_⟩
          cases hl'
          rw [hle]
          simp [pcRows]

/-- C5: after a successful `postRouter.update` that supplied a category id
list (even the empty one), the junction rows of that post are exactly the
supplied list — previously associated categories absent from the new list
are gone and each supplied category is associated — while junction rows
of other posts are preserved. -/
theorem C5_update_category_replacement (db : DB) (input : UpdatePostInput)
    (now : Int) (p' : Post) (db' : DB) (l : List Nat)
    (hcat : input.categoryIds = some l)
    (hup : updatePost db input now = .ok (p', db')) :
    (db'.postCategories.filter (fun pc => pc.postId == input.id)).map
      (fun pc => pc.categoryId) = l
    ∧ ∀ pc ∈ db'.postCategories, pc.postId ≠ input.id →
        pc ∈ db.postCategories := by
  obtain ⟨old, hfind, hp, hposts, hcats, husers, hnone, hsome⟩ :=
    updatePost_ok_spec db input now p' db' hup
  have hpcs := hsome l hcat
  constructor
  · rw [hpcs, List.filter_append, filter_ne_filter_eq, pcRows_filter_self,
      List.nil_append, pcRows_map_categoryId]
  · intro pc hpc hne
    rw [hpcs] at hpc
    rcases List.mem_append.mp hpc with hm | hm
    · exact List.mem_of_mem_filter hm
    · exact absurd (pcRows_postId input.id now l db.nextPcId pc hm) hne

/-- The store of the category-replacement scenario: one post associated
with categories 1 and 2, category 3 existing. -/
def replaceDB : DB :=
  { users := [slugUser]
    posts := [samplePost 1 1 0 "aaaa" "AAAAA"]
    categories := [sampleCategory 1, sampleCategory 2, sampleCategory 3]
    postCategories := [⟨1, 1, 1, 0⟩, ⟨2, 1, 2, 0⟩]
    nextUserId := 2, nextPostId := 2, nextCategoryId := 4, nextPcId := 3 }

/-- The update input replacing categories [1,2] by [3]. -/
def replaceInput : UpdatePostInput :=
  { id := 1, title := none, content := none, published := none
    categoryIds := some [3] }

/-- The concrete result of the category-replacement update. -/
def replaceResult : Post × DB :=
  match updatePost replaceDB replaceInput 9 with
  | .ok r => r
  | .error _ => (samplePost 0 0 0 "x" "x", replaceDB)

/-- C5 witness: updating the post's categoryIds from [1,2] to [3] leaves it
associated with exactly category 3. -/
theorem C5_update_category_replacement_witness :
    ((replaceResult.2.postCategories.filter
      (fun pc => pc.postId == replaceInput.id)).map
        (fun pc => pc.categoryId)) = [3] :=
  (C5_update_category_replacement replaceDB replaceInput 9 replaceResult.1
    replaceResult.2 [3] rfl rfl).1

/-- C6: `postRouter.update` is idempotent with respect to its category id
list — running the same update twice leaves the junction table with the
same (post, category) pairs, in the same order, as running it once. -/
theorem C6_update_idempotent (db : DB) (input : UpdatePostInput) (now : Int)
    (p1 : Post) (db1 : DB) (p2 : Post) (db2 : DB)
    (h1 : updatePost db input now = .ok (p1, db1))
    (h2 : updatePost db1 input now = .ok (p2, db2)) :
    db2.postCategories.map (fun pc => (pc.postId, pc.categoryId)) =
      db1.postCategories.map (fun pc => (pc.postId, pc.categoryId)) := by
  obtain ⟨o1, _, _, _, _, _, hnone1, hsome1⟩ :=
    updatePost_ok_spec db input now p1 db1 h1
  obtain ⟨o2, _, _, _, _, _, hnone2, hsome2⟩ :=
    updatePost_ok_spec db1 input now p2 db2 h2
  cases hcat : input.categoryIds with
  | none => rw [hnone2 hcat]
  | some l =>
    have e1 := hsome1 l hcat
    have e2 := hsome2 l hcat
    rw [e2, e1, List.filter_append, filter_ne_idem, pcRows_filter_out,
      List.append_nil, List.map_append, List.map_append, pcRows_pairs,
      pcRows_pairs]

/-- The concrete result of running the category-replacement update twice. -/
def replaceTwiceResult : Post × DB :=
  match updatePost replaceResult.2 replaceInput 9 with
  | .ok r => r
  | .error _ => (samplePost 0 0 0 "x" "x", replaceDB)

/-- C6 witness: running the concrete [3]-replacement twice leaves the same
junction pairs as running it once. -/
theorem C6_update_idempotent_witness :
    replaceTwiceResult.2.postCategories.map
      (fun pc => (pc.postId, pc.categoryId)) =
    replaceResult.2.postCategories.map
      (fun pc => (pc.postId, pc.categoryId)) :=
  C6_update_idempotent replaceDB replaceInput 9 replaceResult.1
    replaceResult.2 replaceTwiceResult.1 replaceTwiceResult.2 rfl rfl

lemma joinRows_post_mem (db : DB) (r : JoinedRow) (h : r ∈ joinRows db) :
    r.post ∈ db.posts := by
  unfold joinRows at h
  rcases List.mem_flatMap.mp h with ⟨p, hp, hr⟩
  revert hr
  split
  · intro hr
    rcases List.mem_singleton.mp hr with he
    rw [he]
    exact hp
  · intro hr
    rcases List.mem_map.mp hr with ⟨pc, _, he⟩
    rw [← he]
    exact hp

/-- C7: `postRouter.delete` fails with NOT_FOUND when no post has the given
identifier (the store is returned unchanged by the failed statement);
otherwise it removes exactly that post's row, the cascade removes its
junction rows, the deleted record is returned, and — under the slug
uniqueness invariant — a subsequent fetch by the deleted post's former
slug returns NOT_FOUND. -/
theorem C7_delete_post (db : DB) (pid : Nat) :
    ((∀ p ∈ db.posts, p.id ≠ pid) →
      deletePost db pid = .error ⟨TRPCCode.NOT_FOUND, "Post not found"⟩)
    ∧ (∀ p, db.posts.find? (fun q => q.id == pid) = some p →
        ∃ db', deletePost db pid = .ok (p, db')
          ∧ (∀ q ∈ db'.posts, q.id ≠ pid)
          ∧ (∀ q ∈ db.posts, q.id ≠ pid → q ∈ db'.posts)
          ∧ (∀ pc ∈ db'.postCategories, pc.postId ≠ pid)
          ∧ ((db.posts.map (fun q => q.slug)).Nodup →
              getBySlugModel db' p.slug =
                .error ⟨TRPCCode.NOT_FOUND, "Post not found"⟩)) := by
  constructor
  · intro h
    unfold deletePost
    rw [List.find?_eq_none.mpr (fun p hp => by simpa using h p hp)]
  · intro p hfind
    have hpmem : p ∈ db.posts := List.mem_of_find?_eq_some hfind
    have hpid : p.id = pid := by
      have := List.find?_some hfind
      simpa using this
    refine ⟨_, by unfold deletePost; rw [hfind], ?_, ?_, ?_, ?_⟩
    · intro q hq
      have := (List.mem_filter.mp hq).2
      simpa using this
    · intro q hq hne
      exact List.mem_filter.mpr ⟨hq, by simpa using hne⟩
    · intro pc hpc
      have := (List.mem_filter.mp hpc).2
      simpa using this
    · intro hnod
      unfold getBySlugModel
      have hempty : ((joinRows { db with
          posts := db.posts.filter (fun q => q.id != pid)
          postCategories :=
            db.postCategories.filter (fun pc => pc.postId != pid) }).filter
            (fun r => r.post.slug == p.slug)) = [] := by
        rw [List.filter_eq_nil]
        intro r hr
        have hrp := joinRows_post_mem _ r hr
        have hrmem : r.post ∈ db.posts :=
          List.mem_of_mem_filter hrp
        have hrne : r.post.id ≠ pid := by
          have := (List.mem_filter.mp hrp).2
          simpa using this
        intro hslug
        have hse : r.post.slug = p.slug := by simpa using hslug
        have : r.post = p :=
          List.inj_on_of_nodup_map hnod hrmem hpmem hse
        rw [this] at hrne
        exact hrne hpid
      rw [hempty]
      rfl

/-- The concrete result of deleting post 2 from the three-post store. -/
def delResult : Post × DB :=
  match deletePost threePostDB 2 with
  | .ok r => r
  | .error _ => (samplePost 0 0 0 "x" "x", threePostDB)

/-- C7 witness: deleting an absent id yields NOT_FOUND, and after deleting
post 2 a fetch by its former slug yields NOT_FOUND. -/
theorem C7_delete_post_witness :
    deletePost emptyDB 5 = .error ⟨TRPCCode.NOT_FOUND, "Post not found"⟩
    ∧ getBySlugModel delResult.2 delResult.1.slug =
        .error ⟨TRPCCode.NOT_FOUND, "Post not found"⟩ := by
  constructor
  · exact (C7_delete_post emptyDB 5).1 (by intro p hp; simp [emptyDB] at hp)
  · obtain ⟨db', hdel, _, _, _, hfetch⟩ :=
      (C7_delete_post threePostDB 2).2 (samplePost 2 1 20 "bbbb" "BBBBB") rfl
    have h2 : delResult.2 = db' := by
      unfold delResult
      rw [hdel]
    have h1 : delResult.1 = samplePost 2 1 20 "bbbb" "BBBBB" := by
      unfold delResult
      rw [hdel]
    rw [h1, h2]
    exact hfetch (by decide)

lemma applyUpdatePayload_spec (p : Post) (input : UpdatePostInput)
    (now : Int) :
    (applyUpdatePayload p input now).id = p.id
    ∧ (applyUpdatePayload p input now).excerpt = p.excerpt
    ∧ (applyUpdatePayload p input now).authorId = p.authorId
    ∧ (applyUpdatePayload p input now).featured = p.featured
    ∧ (applyUpdatePayload p input now).viewCount = p.viewCount
    ∧ (applyUpdatePayload p input now).readingTime = p.readingTime
    ∧ (applyUpdatePayload p input now).seoTitle = p.seoTitle
    ∧ (applyUpdatePayload p input now).seoDescription = p.seoDescription
    ∧ (applyUpdatePayload p input now).publishedAt = p.publishedAt
    ∧ (applyUpdatePayload p input now).createdAt = p.createdAt
    ∧ (applyUpdatePayload p input now).updatedAt = now
    ∧ (input.title = none →
        (applyUpdatePayload p input now).title = p.title
        ∧ (applyUpdatePayload p input now).slug = p.slug)
    ∧ (∀ t, input.title = some t → t ≠ "" →
        (applyUpdatePayload p input now).title = t
        ∧ (applyUpdatePayload p input now).slug = generateSlug t)
    ∧ (input.content = none →
        (applyUpdatePayload p input now).content = p.content)
    ∧ (input.published = none →
        (applyUpdatePayload p input now).published = p.published) := by
  unfold applyUpdatePayload
  cases ht : input.title with
  | none =>
    cases hc : input.content <;> cases hb : input.published <;> simp
  | some t0 =>
    by_cases hval : t0 = ""
    · cases hc : input.content <;> cases hb : input.published <;>
        simp [hval]
    · cases hc : input.content <;> cases hb : input.published <;>
        simp [hval]
  all_goals
    try (intro t htt hne; subst htt; simp_all)

/-- C10: frame condition of `postRouter.update` — for a valid input, a
successful update modifies only the supplied fields plus `updatedAt`; the
slug is regenerated exactly when a title is supplied and is otherwise
unchanged; omitting `categoryIds` leaves the junction table untouched;
other posts, categories and users are untouched. -/
theorem C10_update_frame (db : DB) (input : UpdatePostInput) (now : Int)
    (p' : Post) (db' : DB) (old : Post)
    (hv : updatePostSchemaOk input = true)
    (hfind : db.posts.find? (fun p => p.id == input.id) = some old)
    (hup : updatePost db input now = .ok (p', db')) :
    p'.id = old.id ∧ p'.excerpt = old.excerpt ∧ p'.authorId = old.authorId
    ∧ p'.featured = old.featured ∧ p'.viewCount = old.viewCount
    ∧ p'.readingTime = old.readingTime ∧ p'.seoTitle = old.seoTitle
    ∧ p'.seoDescription = old.seoDescription
    ∧ p'.publishedAt = old.publishedAt ∧ p'.createdAt = old.createdAt
    ∧ p'.updatedAt = now
    ∧ (input.title = none → p'.title = old.title ∧ p'.slug = old.slug)
    ∧ (∀ t, input.title = some t → p'.title = t ∧ p'.slug = generateSlug t)
    ∧ (input.content = none → p'.content = old.content)
    ∧ (input.published = none → p'.published = old.published)
    ∧ (input.categoryIds = none → db'.postCategories = db.postCategories)
    ∧ (∀ q ∈ db.posts, q.id ≠ input.id → q ∈ db'.posts)
    ∧ db'.categories = db.categories ∧ db'.users = db.users := by
  obtain ⟨old2, hfind2, hp, hposts, hcats, husers, hnone, _⟩ :=
    updatePost_ok_spec db input now p' db' hup
  have holde : old = old2 := by
    rw [hfind] at hfind2
    exact (Option.some.injEq _ _).mp hfind2
  subst holde
  subst hp
  obtain ⟨s1, s2, s3, s4, s5, s6, s7, s8, s9, s10, s11, s12, s13, s14, s15⟩ :=
    applyUpdatePayload_spec old input now
  refine ⟨s1, s2, s3, s4, s5, s6, s7, s8, s9, s10, s11, s12, ?_, s14, s15,
    hnone, ?_, hcats, husers⟩
  · intro t htt
    have hne : t ≠ "" := by
      intro he
      subst he
      simp [updatePostSchemaOk, htt] at hv
    exact s13 t htt hne
  · intro q hq hne
    rw [hposts]
    refine List.mem_map.mpr ⟨q, hq, ?_⟩
    simp [hne]

/-- The update input of the frame scenario: only `published` supplied. -/
def frameInput : UpdatePostInput :=
  { id := 1, title := none, content := none, published := some false
    categoryIds := none }

/-- The concrete result of the frame-scenario update. -/
def frameResult : Post × DB :=
  match updatePost replaceDB frameInput 11 with
  | .ok r => r
  | .error _ => (samplePost 0 0 0 "x" "x", replaceDB)

/-- C10 witness: the concrete published-only update leaves slug, title and
junction rows unchanged and stamps `updatedAt`. -/
theorem C10_update_frame_witness :
    frameResult.1.slug = (samplePost 1 1 0 "aaaa" "AAAAA").slug
    ∧ frameResult.1.title = (samplePost 1 1 0 "aaaa" "AAAAA").title
    ∧ frameResult.1.updatedAt = 11
    ∧ frameResult.2.postCategories = replaceDB.postCategories := by
  have h := C10_update_frame replaceDB frameInput 11 frameResult.1
    frameResult.2 (samplePost 1 1 0 "aaaa" "AAAAA") rfl rfl rfl
  exact ⟨(h.2.2.2.2.2.2.2.2.2.2.2.1 rfl).2, (h.2.2.2.2.2.2.2.2.2.2.2.1 rfl).1,
    h.2.2.2.2.2.2.2.2.2.2.1, h.2.2.2.2.2.2.2.2.2.2.2.2.2.2.2.1 rfl⟩

end Blog
